import Mathlib

set_option maxHeartbeats 1600000
set_option maxRecDepth 4000

/-!
Shallow embedding of `scripts/telemetry-crashes.py`: the symbol table,
platform classifier, ASLR resolver, signature engine and aggregator, together
with the string and hashing primitives the script relies on.  Python's
unbounded integers are `Int` (with `fdiv`/`emod` for floor division and
nonnegative remainder), Python lists are `List`, Python dicts keyed by
strings are association lists or lookup functions, and string operations are
modelled on code-point lists (Python strings are code-point sequences).
-/

/- ------------------------------------------------------------------
   Python string / integer formatting primitives
   ------------------------------------------------------------------ -/

/-- Lowercase hex digit character for a value below 16 (Python `%x`). -/
def hexDigitChar (n : Nat) : Char :=
  if n < 10 then Char.ofNat (48 + n) else Char.ofNat (87 + n)

/-- Accumulator form of hex rendering: the digits of `n` (most significant
first) prepended to `acc`; renders nothing for `n = 0`.  The first argument
is recursion fuel (any amount at least `n` gives the exact digits). -/
def natHexGo : Nat → Nat → List Char → List Char
  | 0, _, acc => acc
  | fuel + 1, n, acc =>
    if n = 0 then acc
    else natHexGo fuel (n / 16) (hexDigitChar (n % 16) :: acc)

/-- Hex digits of a natural number, Python `f"{n:x}"` for nonnegative `n`. -/
def natHexChars (n : Nat) : List Char :=
  if n = 0 then ['0'] else natHexGo n n []

/-- Python `f"{n:x}"` on an unbounded int: a leading minus for negatives. -/
def intHexChars (n : Int) : List Char :=
  if n < 0 then '-' :: natHexChars n.natAbs else natHexChars n.natAbs

/-- Python `f"0x{n:x}"` (the script's bare-hex address rendering). -/
def pyHex0x (n : Int) : String := String.mk ('0' :: 'x' :: intHexChars n)

/-- Python `f"{n:#x}"`: for negatives the sign precedes the `0x` marker. -/
def pyHexHash (n : Int) : String :=
  if n < 0 then String.mk ('-' :: '0' :: 'x' :: natHexChars n.natAbs)
  else String.mk ('0' :: 'x' :: natHexChars n.natAbs)

/-- Value of one hex digit character, either case, else `none`. -/
def hexDigitVal (c : Char) : Option Nat :=
  if '0' ≤ c ∧ c ≤ '9' then some (c.toNat - 48)
  else if 'a' ≤ c ∧ c ≤ 'f' then some (c.toNat - 87)
  else if 'A' ≤ c ∧ c ≤ 'F' then some (c.toNat - 55)
  else none

/-- Whether a character is a hex digit. -/
def isHexDigit (c : Char) : Bool := (hexDigitVal c).isSome

/-- Value of a most-significant-first hex digit string. -/
def hexVal (cs : List Char) : Nat :=
  cs.foldl (fun a c => 16 * a + (hexDigitVal c).getD 0) 0

/-- Digit part of `int(s, 16)` after the optional sign: strip one optional
`0x`/`0X` radix marker, then require a nonempty all-hex-digit run. -/
def parseHexDigits (cs : List Char) : Option Nat :=
  let ds := match cs with
    | '0' :: 'x' :: rest => rest
    | '0' :: 'X' :: rest => rest
    | other => other
  if ds ≠ [] ∧ ds.all isHexDigit then some (hexVal ds) else none

/-- Python `int(s, 16)`, restricted to an optional sign, an optional radix
marker and hex digits (the forms the script ever produces or receives);
anything else is a parse failure (`ValueError`). -/
def pyParseHex (s : String) : Option Int :=
  match s.toList with
  | '-' :: rest => (parseHexDigits rest).map (fun n => -(n : Int))
  | '+' :: rest => (parseHexDigits rest).map (fun n => (n : Int))
  | cs => (parseHexDigits cs).map (fun n => (n : Int))

/-- Python `s.startswith(pre)`. -/
def pyStartsWith (s pre : String) : Bool := pre.toList.isPrefixOf s.toList

/-- Python `s.rfind(pat)`: greatest start index at which `pat` occurs in `s`,
`-1` when it never occurs. -/
def pyRfind (s pat : String) : Int :=
  match ((List.range (s.toList.length + 1)).filter
      (fun i => pat.toList.isPrefixOf (s.toList.drop i))).getLast? with
  | some i => (i : Int)
  | none => -1

/-- Python slice `s[:k]` for nonnegative `k` (code-point prefix). -/
def pyTake (s : String) (k : Nat) : String := String.mk (s.toList.take k)

/-- Python `pat in s` on strings. -/
def strContains (s pat : String) : Bool :=
  decide (pat.toList <:+: s.toList)

/-- Python `"\n".join(parts)`. -/
def joinNL (parts : List String) : String := String.intercalate "\n" parts

/- ------------------------------------------------------------------
   SHA-256 (`hashlib.sha256(...).hexdigest()`), over byte lists
   ------------------------------------------------------------------ -/

/-- UTF-8 encoding of one code point (Python `str.encode()`), as byte values. -/
def utf8EncodeCharNat (c : Char) : List Nat :=
  let n := c.toNat
  if n < 0x80 then [n]
  else if n < 0x800 then
    [0xC0 ||| (n >>> 6), 0x80 ||| (n &&& 0x3F)]
  else if n < 0x10000 then
    [0xE0 ||| (n >>> 12), 0x80 ||| ((n >>> 6) &&& 0x3F), 0x80 ||| (n &&& 0x3F)]
  else
    [0xF0 ||| (n >>> 18), 0x80 ||| ((n >>> 12) &&& 0x3F),
     0x80 ||| ((n >>> 6) &&& 0x3F), 0x80 ||| (n &&& 0x3F)]

/-- UTF-8 bytes of a string. -/
def utf8Encode (s : String) : List Nat := s.toList.flatMap utf8EncodeCharNat

/-- Truncation to a 32-bit word. -/
def w32 (n : Nat) : Nat := n % 4294967296

/-- 32-bit right rotation. -/
def rotr32 (k x : Nat) : Nat := w32 ((x >>> k) ||| (x <<< (32 - k)))

/-- The SHA-256 round constants. -/
def shaK : List Nat :=
  [1116352408, 1899447441, 3049323471, 3921009573, 961987163,
   1508970993, 2453635748, 2870763221, 3624381080, 310598401,
   607225278, 1426881987, 1925078388, 2162078206, 2614888103,
   3248222580, 3835390401, 4022224774, 264347078, 604807628,
   770255983, 1249150122, 1555081692, 1996064986, 2554220882,
   2821834349, 2952996808, 3210313671, 3336571891, 3584528711,
   113926993, 338241895, 666307205, 773529912, 1294757372,
   1396182291, 1695183700, 1986661051, 2177026350, 2456956037,
   2730485921, 2820302411, 3259730800, 3345764771, 3516065817,
   3600352804, 4094571909, 275423344, 430227734, 506948616,
   659060556, 883997877, 958139571, 1322822218, 1537002063,
   1747873779, 1955562222, 2024104815, 2227730452, 2361852424,
   2428436474, 2756734187, 3204031479, 3329325298]

/-- The SHA-256 initial hash value. -/
def shaH0 : List Nat :=
  [1779033703, 3144134277, 1013904242, 2773480762,
   1359893119, 2600822924, 528734635, 1541459225]

/-- SHA-256 padding: `0x80`, zeros to 56 mod 64, 8-byte big-endian bit length. -/
def sha256pad (msg : List Nat) : List Nat :=
  msg ++ [0x80] ++ List.replicate ((119 - msg.length % 64) % 64) 0
    ++ (List.range 8).map (fun i => ((msg.length * 8) >>> (8 * (7 - i))) &&& 0xFF)

/-- Split a byte list into 64-byte chunks; the first argument is recursion
fuel (any amount at least the list length is exact). -/
def chunksGo : Nat → List Nat → List (List Nat)
  | _, [] => []
  | 0, _ :: _ => []
  | fuel + 1, b :: rest => ((b :: rest).take 64) :: chunksGo fuel ((b :: rest).drop 64)

/-- Split a byte list into 64-byte chunks. -/
def chunks64 (l : List Nat) : List (List Nat) := chunksGo l.length l

/-- Big-endian 4-byte grouping into 32-bit words. -/
def beWords : List Nat → List Nat
  | b0 :: b1 :: b2 :: b3 :: rest =>
    ((b0 <<< 24) ||| (b1 <<< 16) ||| (b2 <<< 8) ||| b3) :: beWords rest
  | _ => []

/-- Message-schedule extension of a 16-word block to 64 words. -/
def extendW (ws : List Nat) : List Nat :=
  (List.range 64).foldl (fun acc i =>
    if i < 16 then acc ++ [ws.getD i 0]
    else
      let x15 := acc.getD (i - 15) 0
      let x2 := acc.getD (i - 2) 0
      let s0 := rotr32 7 x15 ^^^ rotr32 18 x15 ^^^ (x15 >>> 3)
      let s1 := rotr32 17 x2 ^^^ rotr32 19 x2 ^^^ (x2 >>> 10)
      acc ++ [w32 (acc.getD (i - 16) 0 + s0 + acc.getD (i - 7) 0 + s1)]) []

/-- One SHA-256 compression over a 16-word block. -/
def compressBlock (h : List Nat) (block : List Nat) : List Nat :=
  let w := extendW block
  let s := (List.range 64).foldl (fun st i =>
    match st with
    | [a, b, c, d, e, f, g, hh] =>
      let S1 := rotr32 6 e ^^^ rotr32 11 e ^^^ rotr32 25 e
      let ch := (e &&& f) ^^^ ((0xFFFFFFFF ^^^ e) &&& g)
      let temp1 := w32 (hh + S1 + ch + shaK.getD i 0 + w.getD i 0)
      let S0 := rotr32 2 a ^^^ rotr32 13 a ^^^ rotr32 22 a
      let maj := (a &&& b) ^^^ (a &&& c) ^^^ (b &&& c)
      let temp2 := w32 (S0 + maj)
      [w32 (temp1 + temp2), a, b, c, w32 (d + temp1), e, f, g]
    | other => other) h
  (h.zip s).map (fun p => w32 (p.1 + p.2))

/-- SHA-256 digest of a byte list, as eight 32-bit words. -/
def sha256words (msg : List Nat) : List Nat :=
  ((chunks64 (sha256pad msg)).map beWords).foldl compressBlock shaH0

/-- A 32-bit word as 8 lowercase hex characters. -/
def word8Hex (n : Nat) : List Char :=
  (List.range 8).map (fun i => hexDigitChar ((n >>> (4 * (7 - i))) &&& 0xF))

/-- `hashlib.sha256(bytes).hexdigest()`. -/
def sha256hex (msg : List Nat) : String :=
  String.mk ((sha256words msg).flatMap word8Hex)

/-- First 8 hex characters of the SHA-256 of a string:
`hashlib.sha256(s.encode()).hexdigest()[:8]`. -/
def hash8 (s : String) : String := pyTake (sha256hex (utf8Encode s)) 8

/- ------------------------------------------------------------------
   Symbol table (`class SymbolTable`)
   ------------------------------------------------------------------ -/

/-- `SymbolTable.GARBAGE_SYMBOLS`: linker/runtime boundary symbols that are
not real functions. -/
def GARBAGE_SYMBOLS : List String :=
  ["data_start", "_edata", "_end", "__bss_start", "__bss_start__",
   "__bss_end__", "__data_start", "__dso_handle", "__libc_csu_init",
   "__libc_csu_fini", "_fini", "_init", "_fp_hw", "_IO_stdin_used",
   "__init_array_start", "__init_array_end", "__fini_array_start",
   "__fini_array_end", "__FRAME_END__", "__GNU_EH_FRAME_HDR",
   "__TMC_END__", "__ehdr_start", "__exidx_start", "__exidx_end",
   "_GLOBAL_OFFSET_TABLE_", "_DYNAMIC", "_PROCEDURE_LINKAGE_TABLE_",
   "completed.0"]

/-- The state of a parsed symbol table: parallel address/name lists plus the
recorded anchor offset (`crash_handler_offset`). -/
structure SymbolTable where
  addrs : List Int
  names : List String
  crash_handler_offset : Option Int
deriving Repr, DecidableEq

/-- `SymbolTable.__init__` on an entries list, including `_find_crash_handler`:
the address of the first entry whose name contains the anchor substring. -/
def SymbolTable.ofEntries (entries : List (Int × String)) : SymbolTable :=
  { addrs := entries.map Prod.fst
    names := entries.map Prod.snd
    crash_handler_offset :=
      (entries.find? (fun e => strContains e.2 "crash_signal_handler")).map Prod.fst }

/-- The `bisect.bisect_right` loop on the sub-range `[lo, hi)` of `a`; the
first numeric argument is recursion fuel (any amount at least `hi - lo` is
exact, since each iteration shrinks the range). -/
def bisectGo (a : List Int) (x : Int) : Nat → Nat → Nat → Nat
  | 0, lo, _ => lo
  | fuel + 1, lo, hi =>
    if lo < hi then
      let mid := (lo + hi) / 2
      if x < a.getD mid 0 then bisectGo a x fuel lo mid
      else bisectGo a x fuel (mid + 1) hi
    else lo

/-- `bisect.bisect_right` restricted to the sub-range `[lo, hi)` of `a`. -/
def bisect_right (a : List Int) (x : Int) (lo hi : Nat) : Nat :=
  bisectGo a x (hi - lo) lo hi

/-- `SymbolTable.lookup`: resolve a file offset to a display string. -/
def SymbolTable.lookup (t : SymbolTable) (file_offset : Int) : String :=
  if t.addrs = [] then pyHex0x file_offset
  else
    let idx : Int := (bisect_right t.addrs file_offset 0 t.addrs.length : Int) - 1
    if idx < 0 then pyHex0x file_offset
    else
      let base := t.addrs.getD idx.toNat 0
      let name := t.names.getD idx.toNat ""
      if GARBAGE_SYMBOLS.contains name then
        "(unknown @ " ++ pyHex0x file_offset ++ ")"
      else
        let offset := file_offset - base
        if offset = 0 then name
        else name ++ String.mk ('+' :: '0' :: 'x' :: intHexChars offset)

/- ------------------------------------------------------------------
   Platform classifier
   ------------------------------------------------------------------ -/

/-- `is_shared_lib_addr`: Python's `(addr >> 32) & 0xFFFF` on unbounded ints
is floor division by `2^32` followed by a nonnegative remainder mod `2^16`. -/
def is_shared_lib_addr (addr : Int) (platform : String) : Bool :=
  if platform = "pi" ∨ platform = "rpi4_64bit" then
    decide ((0xFFFF : Int) ≤ (addr.fdiv 4294967296).emod 65536)
  else if platform = "pi32" then
    decide ((0xF0000000 : Int) ≤ addr)
  else false

/-- `detect_platform_from_addrs`: the first address above 32 bits forces
the 64-bit platform. -/
def detect_platform_from_addrs : List Int → String
  | [] => "pi32"
  | a :: rest =>
    if (0xFFFFFFFF : Int) < a then "pi" else detect_platform_from_addrs rest

/- ------------------------------------------------------------------
   ASLR resolver (`resolve_backtrace`)
   ------------------------------------------------------------------ -/

/-- One resolved backtrace frame (the `{addr, resolved, is_shared_lib}` dict). -/
structure Frame where
  addr : String
  resolved : String
  is_shared_lib : Bool
deriving Repr, DecidableEq

/-- Degraded-mode frame: raw passthrough (no table or no anchor). -/
def rawFrame (platform : String) (addr : Int) : Frame :=
  let is_lib := is_shared_lib_addr addr platform
  { addr := pyHex0x addr
    resolved := if is_lib then "<shared lib>" else pyHex0x addr
    is_shared_lib := is_lib }

/-- Anchor-mode frame (`resolve_backtrace` main loop body). -/
def anchorFrame (platform : String) (symbols : SymbolTable)
    (base_address addr : Int) : Frame :=
  if is_shared_lib_addr addr platform then
    { addr := pyHex0x addr, resolved := "<shared lib>", is_shared_lib := true }
  else
    { addr := pyHex0x addr
      resolved := symbols.lookup (addr - base_address)
      is_shared_lib := false }

/-- `resolve_backtrace`: unparsable addresses become 0; without a table or a
recorded anchor every frame is raw passthrough; otherwise the ASLR base is
`addrs[0] - crash_handler_offset` and each non-library frame is looked up at
its file offset. -/
def resolve_backtrace (backtrace : List String) (platform : String)
    (symbols : Option SymbolTable) : List Frame :=
  if backtrace = [] then []
  else
    let addrs := backtrace.map (fun s => (pyParseHex s).getD 0)
    match symbols with
    | none => addrs.map (rawFrame platform)
    | some t =>
      match t.crash_handler_offset with
      | none => addrs.map (rawFrame platform)
      | some anchor =>
        let base_address := addrs.headD 0 - anchor
        addrs.map (anchorFrame platform t base_address)

/- ------------------------------------------------------------------
   Signature engine (`compute_signature`)
   ------------------------------------------------------------------ -/

/-- Strip a trailing `+0x...` suffix the way the script does: cut at the last
occurrence of `"+0x"` when that occurrence is at a positive index. -/
def stripPlusOffset (name : String) : String :=
  let plus_idx := pyRfind name "+0x"
  if 0 < plus_idx then pyTake name plus_idx.toNat else name

/-- The `has_symbols` test of `compute_signature`: some frame after frame 0
is neither a shared-library frame nor a bare hex address. -/
def has_symbols_check (frames : List Frame) : Bool :=
  (frames.drop 1).any (fun f => !f.is_shared_lib && !pyStartsWith f.resolved "0x")

/-- Primary-path loop of `compute_signature` (`enumerate`, skipping frame 0
and shared-library frames), running index `i`. -/
def primaryLoop : Nat → List Frame → List String
  | _, [] => []
  | i, f :: rest =>
    if i = 0 then primaryLoop (i + 1) rest
    else if f.is_shared_lib then primaryLoop (i + 1) rest
    else stripPlusOffset f.resolved :: primaryLoop (i + 1) rest

/-- Fallback-path loop of `compute_signature`: a `rel+0xDELTA` token against
`base_addr` per non-library frame after frame 0, the resolved text when the
frame's address fails to parse. -/
def fallbackLoop (base_addr : Int) : Nat → List Frame → List String
  | _, [] => []
  | i, f :: rest =>
    if i = 0 then fallbackLoop base_addr (i + 1) rest
    else if f.is_shared_lib then fallbackLoop base_addr (i + 1) rest
    else
      (match pyParseHex f.addr with
        | some a => "rel+" ++ pyHexHash (a - base_addr)
        | none => f.resolved) :: fallbackLoop base_addr (i + 1) rest

/-- `base_addr` selection in the fallback path: the loop breaks at the first
non-shared-library frame, leaving the base unset on a parse failure. -/
def fallbackBase (frames : List Frame) : Option Int :=
  match frames.find? (fun f => !f.is_shared_lib) with
  | none => none
  | some f => pyParseHex f.addr

/-- `compute_signature`: hash of the stripped resolved names when symbols are
available, hash of relative-offset tokens otherwise, `"unknown"` when no
parts remain. -/
def compute_signature (frames : List Frame) : String :=
  let sig_parts :=
    if has_symbols_check frames then primaryLoop 0 frames
    else
      match fallbackBase frames with
      | none => []
      | some base_addr => fallbackLoop base_addr 0 frames
  if sig_parts = [] then "unknown"
  else hash8 (joinNL sig_parts)

/- ------------------------------------------------------------------
   Aggregator (`analyze_crashes` and its helpers)
   ------------------------------------------------------------------ -/

/-- A crash event; each field models `crash.get(key, default)` with `none`
standing for an absent key (an absent `backtrace` and the default `[]` are
indistinguishable, so it is a plain list). -/
structure CrashEvent where
  app_version : Option String
  device_id : Option String
  backtrace : List String
  uptime_sec : Option Int
  signal_name : Option String
  timestamp : Option String
deriving Repr, DecidableEq

/-- A session event, reduced to the two fields
`build_device_platform_map` consumes (`device_id` and `app.platform`). -/
structure Session where
  device_id : Option String
  platform : Option String
deriving Repr, DecidableEq

/-- Python truthiness of an optional string: present and nonempty. -/
def truthyStr : Option String → Bool
  | none => false
  | some s => !(s = "")

/-- `build_device_platform_map`: device id to platform (`rpi4_64bit`
normalised to `pi`), later sessions overriding earlier ones. -/
def build_device_platform_map (sessions : List Session) : String → Option String :=
  sessions.foldl (fun m s =>
    if truthyStr s.device_id ∧ truthyStr s.platform then
      let plat := if s.platform.getD "" = "rpi4_64bit" then "pi" else s.platform.getD ""
      fun k => if k = s.device_id.getD "" then some plat else m k
    else m) (fun _ => none)

/-- `get_platform`: explicit override, then the device map, then the
address heuristic (unparsable addresses dropped). -/
def get_platform (crash : CrashEvent) (device_map : String → Option String)
    (override : Option String) : String :=
  if truthyStr override then override.getD ""
  else
    match device_map (crash.device_id.getD "") with
    | some p => p
    | none => detect_platform_from_addrs (crash.backtrace.filterMap pyParseHex)

/-- One aggregated instance record. -/
structure CrashInstance where
  version : String
  platform : String
  device : String
  uptime : Int
  signal : String
  timestamp : String
  frames : List Frame
deriving Repr, DecidableEq

/-- One `CrashSignatureGroup` (an entry of the `signatures` dict); the Python
sets are modelled as insertion-ordered duplicate-free lists. -/
structure CrashSignatureGroup where
  sig : String
  count : Nat
  signal : String
  versions : List String
  devices : List String
  platforms : List String
  uptimes : List Int
  timestamps : List String
  frames : List Frame
  shallow : Bool
  instances : List CrashInstance
deriving Repr, DecidableEq

/-- Python `set.add`. -/
def insertSet (l : List String) (x : String) : List String :=
  if l.contains x then l else l ++ [x]

/-- The platform the analysis loop attributes to one crash event. -/
def crashPlatform (device_map : String → Option String) (override : Option String)
    (crash : CrashEvent) : String :=
  get_platform crash device_map override

/-- The resolved frames of one crash event: symbols fetched from the cache
collaborator by `(version, platform)`. -/
def crashFrames (device_map : String → Option String)
    (symtab : String → String → Option SymbolTable) (override : Option String)
    (crash : CrashEvent) : List Frame :=
  resolve_backtrace crash.backtrace (crashPlatform device_map override crash)
    (symtab (crash.app_version.getD "unknown") (crashPlatform device_map override crash))

/-- The signature the analysis loop computes for one crash event. -/
def crashSig (device_map : String → Option String)
    (symtab : String → String → Option SymbolTable) (override : Option String)
    (crash : CrashEvent) : String :=
  compute_signature (crashFrames device_map symtab override crash)

/-- The group created on the first occurrence of a signature: zero counts and
empty aggregates, the event's frames as the permanent representative, the
shallow flag computed from them. -/
def newGroup (sig signal_name : String) (frames : List Frame) :
    CrashSignatureGroup :=
  { sig := sig, count := 0, signal := signal_name, versions := [],
    devices := [], platforms := [], uptimes := [], timestamps := [],
    frames := frames, shallow := decide ((frames.filter
      (fun f => !f.is_shared_lib)).length ≤ 2), instances := [] }

/-- The per-event mutation applied to the matching group: bump the count,
union the sets, extend the history lists. -/
def bumpGroup (version platform device_id : String) (uptime : Int)
    (signal_name timestamp : String) (frames : List Frame)
    (g : CrashSignatureGroup) : CrashSignatureGroup :=
  { g with
    count := g.count + 1
    versions := insertSet g.versions version
    devices := insertSet g.devices (pyTake device_id 8)
    platforms := insertSet g.platforms platform
    uptimes := g.uptimes ++ [uptime]
    timestamps := g.timestamps ++ [timestamp]
    instances := g.instances ++
      [{ version := version, platform := platform,
         device := pyTake device_id 8, uptime := uptime,
         signal := signal_name, timestamp := timestamp, frames := frames }] }

/-- Body of the `analyze_crashes` event loop: skip on a signature-filter
mismatch, otherwise find or create the group and fold the event in. -/
def crashStep (device_map : String → Option String)
    (symtab : String → String → Option SymbolTable)
    (override sig_filter : Option String)
    (m : List CrashSignatureGroup) (crash : CrashEvent) : List CrashSignatureGroup :=
  let version := crash.app_version.getD "unknown"
  let platform := crashPlatform device_map override crash
  let device_id := crash.device_id.getD ""
  let uptime := crash.uptime_sec.getD 0
  let signal_name := crash.signal_name.getD "?"
  let timestamp := crash.timestamp.getD ""
  let frames := crashFrames device_map symtab override crash
  let sig := crashSig device_map symtab override crash
  if truthyStr sig_filter ∧ ¬pyStartsWith sig (sig_filter.getD "") then m
  else
    let m1 :=
      if m.any (fun g => g.sig = sig) then m
      else m ++ [newGroup sig signal_name frames]
    m1.map (fun g =>
      if g.sig = sig then
        bumpGroup version platform device_id uptime signal_name timestamp frames g
      else g)

/-- Stable insertion of a group into a count-descending list: it lands after
every group whose count is at least its own. -/
def insertByCountDesc (g : CrashSignatureGroup) :
    List CrashSignatureGroup → List CrashSignatureGroup
  | [] => [g]
  | h :: t => if h.count ≤ g.count then g :: h :: t else h :: insertByCountDesc g t

/-- Python's stable `sorted(..., key=lambda g: -g["count"])`: a stable sort by
descending count (equal counts keep their first-seen order). -/
def sortByCountDesc : List CrashSignatureGroup → List CrashSignatureGroup
  | [] => []
  | g :: rest => insertByCountDesc g (sortByCountDesc rest)

/-- The result record of `analyze_crashes`. -/
structure AnalyzeResult where
  total_crashes : Nat
  total_signatures : Nat
  signatures : List CrashSignatureGroup
deriving Repr, DecidableEq

/-- `analyze_crashes`: version filter, one aggregation pass, then a stable
sort by descending count. -/
def analyze_crashes (crashes : List CrashEvent) (sessions : List Session)
    (symtab : String → String → Option SymbolTable)
    (platform_override version_filter sig_filter : Option String) : AnalyzeResult :=
  let device_map := build_device_platform_map sessions
  let kept :=
    if truthyStr version_filter then
      crashes.filter (fun c => c.app_version = version_filter)
    else crashes
  let m := kept.foldl (crashStep device_map symtab platform_override sig_filter) []
  let sorted := sortByCountDesc m
  { total_crashes := kept.length
    total_signatures := sorted.length
    signatures := sorted }


/- ------------------------------------------------------------------
   Concrete fixtures used by several claims
   ------------------------------------------------------------------ -/

/-- The symbol table of the spec's end-to-end example. -/
def exampleTable : SymbolTable :=
  SymbolTable.ofEntries
    [(0x1000, "main"), (0x1050, "foo"), (0x1100, "crash_signal_handler"),
     (0x1200, "bar")]

/-- A crash event carrying nothing at all (in particular an empty backtrace). -/
def emptyBacktraceEvent : CrashEvent := ⟨none, none, [], none, none, none⟩

/-- The spec-side shift of a backtrace address: add the constant `c` to every
address not classified as shared-library code. -/
def shiftAddr (platform : String) (c : Nat) (a : Nat) : Nat :=
  if is_shared_lib_addr (a : Int) platform then a else a + c

/-- Boolean strict sortedness of an address list (decidable by evaluation). -/
def sortedLt : List Int → Bool
  | [] => true
  | [_] => true
  | a :: b :: rest => decide (a < b) && sortedLt (b :: rest)

/-- The table of the C10 scenario: an anchor and one garbage boundary
symbol, with a symbol gap above the latter. -/
def gapTable : SymbolTable :=
  SymbolTable.ofEntries [(0x1000, "crash_signal_handler"), (0x2000, "_edata")]

/- ------------------------------------------------------------------
   Spec-side signature definitions (for the refinement claim C4)
   ------------------------------------------------------------------ -/

/-- Spec wording for the primary path: the resolved names of every frame
except frame 0 and except shared-library frames, each with its trailing
`+0x...` suffix stripped. -/
def specPrimaryNames (frames : List Frame) : List String :=
  ((frames.drop 1).filter (fun f => !f.is_shared_lib)).map
    (fun f => stripPlusOffset f.resolved)

/-- Spec wording for the fallback path: `rel+0xDELTA` tokens obtained by
subtracting the first non-shared-library frame's raw address from each
non-library frame after index 0. -/
def specFallbackTokens (frames : List Frame) : List String :=
  match (frames.find? (fun f => !f.is_shared_lib)).bind (fun f => pyParseHex f.addr) with
  | none => []
  | some base =>
    ((frames.drop 1).filter (fun f => !f.is_shared_lib)).map
      (fun f => "rel+" ++ pyHexHash ((pyParseHex f.addr).getD 0 - base))

/- ------------------------------------------------------------------
   Hex formatting / parsing lemmas
   ------------------------------------------------------------------ -/

theorem hexDigitVal_hexDigitChar {d : Nat} (h : d < 16) :
    hexDigitVal (hexDigitChar d) = some d := by
  interval_cases d <;> decide

theorem natHexGo_fuel : ∀ n fuel fuel' acc, n ≤ fuel → n ≤ fuel' →
    natHexGo fuel n acc = natHexGo fuel' n acc := by
  intro n
  induction n using Nat.strong_induction_on with
  | _ n ih =>
    intro fuel fuel' acc hf hf'
    by_cases h : n = 0
    · subst h
      cases fuel <;> cases fuel' <;> simp [natHexGo]
    · obtain ⟨f, rfl⟩ : ∃ f, fuel = f + 1 := ⟨fuel - 1, by omega⟩
      obtain ⟨f', rfl⟩ : ∃ g, fuel' = g + 1 := ⟨fuel' - 1, by omega⟩
      simp only [natHexGo, h, if_false]
      have hdiv : n / 16 < n := Nat.div_lt_self (Nat.pos_of_ne_zero h) (by omega)
      exact ih (n / 16) hdiv f f' _ (by omega) (by omega)

/-- The canonical digit list: `natHexGo` with fuel equal to the argument. -/
theorem natHexAux_step (n : Nat) (acc : List Char) (h : n ≠ 0) :
    natHexGo n n acc = natHexGo (n / 16) (n / 16) (hexDigitChar (n % 16) :: acc) := by
  obtain ⟨m, rfl⟩ : ∃ m, n = m + 1 := ⟨n - 1, by omega⟩
  simp only [natHexGo, h, if_false]
  have hdiv : (m + 1) / 16 < m + 1 := Nat.div_lt_self (by omega) (by omega)
  exact natHexGo_fuel ((m + 1) / 16) m ((m + 1) / 16) _ (by omega) (by omega)

theorem natHexAux_eq_append (n : Nat) : ∀ acc : List Char,
    natHexGo n n acc = natHexGo n n [] ++ acc := by
  induction n using Nat.strong_induction_on with
  | _ n ih =>
    intro acc
    by_cases h : n = 0
    · subst h; simp [natHexGo]
    · have hlt : n / 16 < n := Nat.div_lt_self (Nat.pos_of_ne_zero h) (by omega)
      rw [natHexAux_step n acc h, natHexAux_step n [] h]
      rw [ih _ hlt (hexDigitChar (n % 16) :: acc), ih _ hlt [hexDigitChar (n % 16)]]
      simp

theorem natHexAux_cons_last (n : Nat) (h : n ≠ 0) :
    natHexGo n n [] = natHexGo (n / 16) (n / 16) [] ++ [hexDigitChar (n % 16)] := by
  rw [natHexAux_step n [] h]
  exact natHexAux_eq_append _ _

theorem natHexAux_all_hex (n : Nat) :
    ∀ c ∈ natHexGo n n [], isHexDigit c = true := by
  induction n using Nat.strong_induction_on with
  | _ n ih =>
    by_cases h : n = 0
    · subst h; simp [natHexGo]
    · rw [natHexAux_cons_last n h]
      intro c hc
      rcases List.mem_append.mp hc with hc | hc
      · exact ih _ (Nat.div_lt_self (Nat.pos_of_ne_zero h) (by omega)) c hc
      · simp only [List.mem_singleton] at hc
        subst hc
        simp [isHexDigit, hexDigitVal_hexDigitChar (Nat.mod_lt n (by omega))]

theorem natHexAux_foldl (n : Nat) : ∀ a : Nat,
    List.foldl (fun a c => 16 * a + (hexDigitVal c).getD 0) a (natHexGo n n []) =
      a * 16 ^ (natHexGo n n []).length + n := by
  induction n using Nat.strong_induction_on with
  | _ n ih =>
    intro a
    by_cases h : n = 0
    · subst h; simp [natHexGo]
    · rw [natHexAux_cons_last n h]
      rw [List.foldl_append]
      have hlt : n / 16 < n := Nat.div_lt_self (Nat.pos_of_ne_zero h) (by omega)
      rw [ih _ hlt a]
      simp only [List.foldl_cons, List.foldl_nil, List.length_append,
        List.length_singleton]
      rw [hexDigitVal_hexDigitChar (Nat.mod_lt n (by omega))]
      simp only [Option.getD_some]
      rw [pow_succ]
      have := Nat.div_add_mod n 16
      ring_nf
      omega

theorem hexVal_natHexChars (n : Nat) : hexVal (natHexChars n) = n := by
  by_cases h : n = 0
  · subst h; decide
  · unfold natHexChars hexVal
    simp only [h, if_false]
    rw [natHexAux_foldl n 0]
    simp

theorem natHexChars_all_hex (n : Nat) :
    (natHexChars n).all isHexDigit = true := by
  rw [List.all_eq_true]
  by_cases h : n = 0
  · subst h; simp [natHexChars]; decide
  · unfold natHexChars
    simp only [h, if_false]
    exact fun c hc => natHexAux_all_hex n c hc

theorem natHexChars_ne_nil (n : Nat) : natHexChars n ≠ [] := by
  by_cases h : n = 0
  · subst h; simp [natHexChars]
  · unfold natHexChars
    simp only [h, if_false]
    rw [natHexAux_cons_last n h]
    simp

theorem parseHexDigits_strip (ds : List Char) (hne : ds ≠ [])
    (hall : ds.all isHexDigit = true) :
    parseHexDigits ('0' :: 'x' :: ds) = some (hexVal ds) := by
  unfold parseHexDigits
  simp [hne, hall]

theorem intHexChars_natCast (n : Nat) : intHexChars (n : Int) = natHexChars n := by
  unfold intHexChars
  simp

theorem pyParseHex_pyHex0x (n : Nat) :
    pyParseHex (pyHex0x (n : Int)) = some (n : Int) := by
  unfold pyHex0x pyParseHex
  rw [intHexChars_natCast]
  have htl : (String.mk ('0' :: 'x' :: natHexChars n)).toList
      = '0' :: 'x' :: natHexChars n := rfl
  rw [htl]
  have := parseHexDigits_strip (natHexChars n) (natHexChars_ne_nil n)
    (natHexChars_all_hex n)
  simp [this, hexVal_natHexChars]

theorem pyStartsWith_pyHex0x (n : Int) :
    pyStartsWith (pyHex0x n) "0x" = true := by
  unfold pyStartsWith pyHex0x
  show List.isPrefixOf ['0', 'x'] ('0' :: 'x' :: intHexChars n) = true
  simp [List.isPrefixOf]

/- ------------------------------------------------------------------
   Binary-search correctness
   ------------------------------------------------------------------ -/

theorem bisectGo_spec (a : List Int) (x : Int)
    (hsorted : ∀ i j, i ≤ j → j < a.length → a.getD i 0 ≤ a.getD j 0) :
    ∀ fuel lo hi, hi - lo ≤ fuel → lo ≤ hi → hi ≤ a.length →
    (∀ j, j < lo → a.getD j 0 ≤ x) →
    (∀ j, hi ≤ j → j < a.length → x < a.getD j 0) →
    lo ≤ bisectGo a x fuel lo hi ∧ bisectGo a x fuel lo hi ≤ hi ∧
    (∀ j, j < bisectGo a x fuel lo hi → a.getD j 0 ≤ x) ∧
    (∀ j, bisectGo a x fuel lo hi ≤ j → j < a.length → x < a.getD j 0) := by
  intro fuel
  induction fuel with
  | zero =>
    intro lo hi hfuel hlh hha hbelow habove
    have heq : lo = hi := by omega
    subst heq
    exact ⟨le_refl _, le_refl _, hbelow, habove⟩
  | succ k ih =>
    intro lo hi hfuel hlh hha hbelow habove
    show lo ≤ (if lo < hi then _ else lo) ∧ _
    by_cases hlt : lo < hi
    · simp only [bisectGo, hlt, if_true]
      by_cases hmid : x < a.getD ((lo + hi) / 2) 0
      · simp only [hmid, if_true]
        have habove' : ∀ j, (lo + hi) / 2 ≤ j → j < a.length → x < a.getD j 0 := by
          intro j hj hja
          exact lt_of_lt_of_le hmid (hsorted _ j hj hja)
        have h := ih lo ((lo + hi) / 2) (by omega) (by omega) (by omega)
          hbelow habove'
        exact ⟨h.1, by omega, h.2.2.1, h.2.2.2⟩
      · simp only [hmid, if_false]
        push_neg at hmid
        have hbelow' : ∀ j, j < (lo + hi) / 2 + 1 → a.getD j 0 ≤ x := by
          intro j hj
          by_cases hjlo : j < lo
          · exact hbelow j hjlo
          · exact le_trans (hsorted j ((lo + hi) / 2) (by omega) (by omega)) hmid
        have h := ih ((lo + hi) / 2 + 1) hi (by omega) (by omega) hha
          hbelow' habove
        exact ⟨by omega, h.2.1, h.2.2.1, h.2.2.2⟩
    · simp only [bisectGo, hlt, if_false]
      have heq : lo = hi := by omega
      subst heq
      exact ⟨le_refl _, le_refl _, hbelow, habove⟩

theorem bisect_right_spec (a : List Int) (x : Int)
    (hsorted : ∀ i j, i ≤ j → j < a.length → a.getD i 0 ≤ a.getD j 0) :
    0 ≤ bisect_right a x 0 a.length ∧ bisect_right a x 0 a.length ≤ a.length ∧
    (∀ j, j < bisect_right a x 0 a.length → a.getD j 0 ≤ x) ∧
    (∀ j, bisect_right a x 0 a.length ≤ j → j < a.length → x < a.getD j 0) := by
  unfold bisect_right
  exact bisectGo_spec a x hsorted (a.length - 0) 0 a.length (by omega) (by omega)
    (le_refl _) (fun j hj => absurd hj (Nat.not_lt_zero j))
    (fun j hj hja => absurd hja (by omega))

/-- Pairwise strict sortedness gives the monotone `getD` form the binary
search proof consumes. -/
theorem chain_lt_getD_mono (a : List Int) (hs : a.Chain' (· < ·)) :
    ∀ i j, i ≤ j → j < a.length → a.getD i 0 ≤ a.getD j 0 := by
  intro i j hij hj
  have hi : i < a.length := lt_of_le_of_lt hij hj
  rw [List.getD_eq_getElem?_getD, List.getD_eq_getElem?_getD,
    List.getElem?_eq_getElem hi, List.getElem?_eq_getElem hj]
  simp only [Option.getD_some]
  rcases Nat.eq_or_lt_of_le hij with heq | hlt
  · subst heq; exact le_refl _
  · have hp := List.chain'_iff_pairwise.mp hs
    have hg := List.pairwise_iff_get.mp hp ⟨i, hi⟩ ⟨j, hj⟩ hlt
    exact le_of_lt (by simpa using hg)

theorem sortedLt_chain' : ∀ l : List Int, sortedLt l = true → l.Chain' (· < ·)
  | [] => fun _ => List.chain'_nil
  | [_] => fun _ => List.chain'_singleton _
  | a :: b :: rest => by
    intro h
    simp only [sortedLt, Bool.and_eq_true, decide_eq_true_eq] at h
    exact List.Chain'.cons h.1 (sortedLt_chain' (b :: rest) h.2)

theorem bisect_right_of_between (a : List Int) (x : Int) (hs : a.Chain' (· < ·))
    (i : Nat) (hi : i < a.length) (hxi : a.getD i 0 ≤ x)
    (hnext : ∀ _ : i + 1 < a.length, x < a.getD (i + 1) 0) :
    bisect_right a x 0 a.length = i + 1 := by
  obtain ⟨h0, hle, hbel, habv⟩ := bisect_right_spec a x (chain_lt_getD_mono a hs)
  by_contra hne
  rcases Nat.lt_or_ge (bisect_right a x 0 a.length) (i + 1) with hlt | hge
  · exact absurd (habv i (by omega) hi) (not_lt.mpr hxi)
  · have h2 : i + 2 ≤ bisect_right a x 0 a.length := by omega
    have h1 : i + 1 < a.length := by omega
    exact absurd (hbel (i + 1) (by omega)) (not_le.mpr (hnext h1))

theorem bisect_right_of_below (a : List Int) (x : Int) (hs : a.Chain' (· < ·))
    (hx : x < a.getD 0 0) :
    bisect_right a x 0 a.length = 0 := by
  obtain ⟨h0, hle, hbel, habv⟩ := bisect_right_spec a x (chain_lt_getD_mono a hs)
  by_contra hne
  exact absurd (hbel 0 (by omega)) (not_le.mpr hx)

/-- C3: for every symbol table with strictly sorted addresses, a lookup value
between symbol `i`'s address (inclusive) and symbol `i+1`'s address
(exclusive; unbounded above for the last symbol) resolves against symbol `i`:
the `(unknown @ 0x...)` marker when that symbol's name is a garbage boundary
symbol, the bare name when the offset from it is zero, `name+0xOFFSET`
otherwise; and a lookup on an empty table, or below the first address,
returns the bare hexadecimal form of the offset, never a symbol name. -/
theorem C3_lookup_contract :
    (∀ t : SymbolTable, sortedLt t.addrs = true →
      ∀ i x, i < t.addrs.length → t.addrs.getD i 0 ≤ x →
      (∀ _ : i + 1 < t.addrs.length, x < t.addrs.getD (i + 1) 0) →
      t.lookup x =
        (if GARBAGE_SYMBOLS.contains (t.names.getD i "") then
          "(unknown @ " ++ pyHex0x x ++ ")"
        else if x = t.addrs.getD i 0 then t.names.getD i ""
        else t.names.getD i "" ++
          String.mk ('+' :: '0' :: 'x' :: intHexChars (x - t.addrs.getD i 0))))
    ∧ (∀ (t : SymbolTable) (x : Int), t.addrs = [] → t.lookup x = pyHex0x x)
    ∧ (∀ (t : SymbolTable) (x : Int), sortedLt t.addrs = true →
        x < t.addrs.getD 0 0 → t.lookup x = pyHex0x x) := by
  refine ⟨?_, ?_, ?_⟩
  · intro t hs i x hi hxi hnext
    have hne : t.addrs ≠ [] := by
      intro h
      rw [h] at hi
      simp at hi
    have hb := bisect_right_of_between t.addrs x (sortedLt_chain' _ hs) i hi hxi hnext
    unfold SymbolTable.lookup
    rw [if_neg hne, hb]
    have hidx : ((i + 1 : Nat) : Int) - 1 = (i : Int) := by push_cast; ring
    rw [hidx]
    rw [if_neg (show ¬((i : Int) < 0) by omega)]
    have htn : ((i : Int)).toNat = i := rfl
    rw [htn]
    by_cases hg : GARBAGE_SYMBOLS.contains (t.names.getD i "") = true
    · rw [if_pos hg, if_pos hg]
    · rw [if_neg hg, if_neg hg]
      by_cases heq : x = t.addrs.getD i 0
      · rw [if_pos (show x - t.addrs.getD i 0 = 0 by omega), if_pos heq]
      · rw [if_neg (show ¬(x - t.addrs.getD i 0 = 0) by omega), if_neg heq]
  · intro t x h
    unfold SymbolTable.lookup
    rw [if_pos h]
  · intro t x hs hx
    by_cases hne : t.addrs = []
    · unfold SymbolTable.lookup
      rw [if_pos hne]
    · have hb := bisect_right_of_below t.addrs x (sortedLt_chain' _ hs) hx
      unfold SymbolTable.lookup
      rw [if_neg hne, hb]
      rw [if_pos (show ((0 : Nat) : Int) - 1 < 0 by norm_num)]

/-- Witness for C3 at concrete inputs: an in-range lookup with an offset, an
empty table, and a below-range lookup. -/
theorem C3_lookup_contract_witness :
    exampleTable.lookup 0x1060 = "foo+0x10" ∧
    (SymbolTable.mk [] [] none).lookup 0x50 = "0x50" ∧
    exampleTable.lookup 0xf00 = "0xf00" := by
  refine ⟨?_, ?_, ?_⟩
  · exact (C3_lookup_contract.1 exampleTable (by decide) 1 0x1060 (by decide)
      (by decide) (fun _ => by decide)).trans (by decide)
  · exact (C3_lookup_contract.2.1 (SymbolTable.mk [] [] none) 0x50 rfl).trans (by decide)
  · exact (C3_lookup_contract.2.2 exampleTable 0xf00 (by decide) (by decide)).trans (by decide)

/- ------------------------------------------------------------------
   Platform classifier facts
   ------------------------------------------------------------------ -/

theorem detect_eq_pi_iff (backtrace : List Int) :
    detect_platform_from_addrs backtrace = "pi" ↔
      ∃ a ∈ backtrace, (0xFFFFFFFF : Int) < a := by
  induction backtrace with
  | nil => simp [detect_platform_from_addrs]
  | cons a rest ih =>
    by_cases h : (0xFFFFFFFF : Int) < a
    · simp [detect_platform_from_addrs, h]
    · simp only [detect_platform_from_addrs, h, if_false, ih,
        List.mem_cons]
      constructor
      · rintro ⟨b, hb, hlt⟩
        exact ⟨b, Or.inr hb, hlt⟩
      · rintro ⟨b, hb | hb, hlt⟩
        · subst hb; exact absurd hlt h
        · exact ⟨b, hb, hlt⟩

theorem detect_eq_pi32_iff (backtrace : List Int) :
    detect_platform_from_addrs backtrace = "pi32" ↔
      ¬∃ a ∈ backtrace, (0xFFFFFFFF : Int) < a := by
  have hdi : detect_platform_from_addrs backtrace = "pi" ∨
      detect_platform_from_addrs backtrace = "pi32" := by
    induction backtrace with
    | nil => exact Or.inr rfl
    | cons a rest ih =>
      by_cases h : (0xFFFFFFFF : Int) < a
      · exact Or.inl (by simp [detect_platform_from_addrs, h])
      · simpa [detect_platform_from_addrs, h] using ih
  rw [← detect_eq_pi_iff]
  rcases hdi with h | h <;> simp [h]

/-- C7: on the 64-bit platforms (`pi`, `rpi4_64bit`) an address is classified
as shared-library exactly when the 16-bit word at bits 32..47 (two's
complement for negatives) is at least 0xFFFF; on `pi32` exactly when the
address is at least 0xF0000000; every other platform identifier classifies
every address as main-binary.  `detect_platform_from_addrs` answers `pi`
exactly when some address exceeds 0xFFFFFFFF and `pi32` otherwise. -/
theorem C7_platform_classification :
    (∀ platform : String, (platform = "pi" ∨ platform = "rpi4_64bit") →
      ∀ addr : Int, is_shared_lib_addr addr platform
        = decide ((0xFFFF : Int) ≤ (addr.fdiv (2 ^ 32)).emod (2 ^ 16))) ∧
    (∀ addr : Int,
      is_shared_lib_addr addr "pi32" = decide ((0xF0000000 : Int) ≤ addr)) ∧
    (∀ platform : String, platform ≠ "pi" → platform ≠ "rpi4_64bit" →
      platform ≠ "pi32" → ∀ addr : Int, is_shared_lib_addr addr platform = false) ∧
    (∀ backtrace : List Int,
      (detect_platform_from_addrs backtrace = "pi" ↔
        ∃ a ∈ backtrace, (0xFFFFFFFF : Int) < a) ∧
      (detect_platform_from_addrs backtrace = "pi32" ↔
        ¬∃ a ∈ backtrace, (0xFFFFFFFF : Int) < a)) := by
  refine ⟨?_, ?_, ?_, fun bt => ⟨detect_eq_pi_iff bt, detect_eq_pi32_iff bt⟩⟩
  · intro platform hp addr
    unfold is_shared_lib_addr
    rw [if_pos hp]
    norm_num
  · intro addr
    unfold is_shared_lib_addr
    rw [if_neg (by decide), if_pos rfl]
  · intro platform h1 h2 h3 addr
    unfold is_shared_lib_addr
    rw [if_neg (by tauto), if_neg h3]

/-- Witness for C7 at concrete inputs: a 64-bit shared-library address, a
32-bit one, an unknown platform, and the two detector outcomes. -/
theorem C7_platform_classification_witness :
    is_shared_lib_addr 0xFFFF00000000 "pi" = true ∧
    is_shared_lib_addr 0xF0000000 "pi32" = true ∧
    is_shared_lib_addr 0xFFFF00000000 "linux" = false ∧
    detect_platform_from_addrs [0x100000000] = "pi" ∧
    detect_platform_from_addrs [0xaaaa1100] = "pi32" := by
  refine ⟨?_, ?_, ?_, ?_, ?_⟩
  · rw [C7_platform_classification.1 "pi" (Or.inl rfl) 0xFFFF00000000]
    decide
  · rw [C7_platform_classification.2.1 0xF0000000]
    decide
  · exact C7_platform_classification.2.2.1 "linux" (by decide) (by decide)
      (by decide) 0xFFFF00000000
  · exact ((C7_platform_classification.2.2.2 [0x100000000]).1).mpr
      ⟨0x100000000, by decide, by decide⟩
  · exact ((C7_platform_classification.2.2.2 [0xaaaa1100]).2).mpr
      (by rintro ⟨a, ha, hlt⟩; simp at ha; omega)

/- ------------------------------------------------------------------
   C9: shared-library marker invariant
   ------------------------------------------------------------------ -/

/-- A degraded symbol-table state (absent table or unset anchor) makes
`resolve_backtrace` a raw passthrough over the parsed addresses. -/
theorem resolve_backtrace_degraded (backtrace : List String) (platform : String)
    (symbols : Option SymbolTable)
    (hdeg : symbols = none ∨ ∃ t, symbols = some t ∧ t.crash_handler_offset = none) :
    resolve_backtrace backtrace platform symbols
      = (backtrace.map (fun s => (pyParseHex s).getD 0)).map (rawFrame platform) := by
  rcases hdeg with rfl | ⟨t, rfl, hcho⟩
  · by_cases hbt : backtrace = []
    · subst hbt; simp [resolve_backtrace]
    · simp [resolve_backtrace, hbt]
  · by_cases hbt : backtrace = []
    · subst hbt; simp [resolve_backtrace]
    · simp [resolve_backtrace, hbt, hcho]

/-- With a recorded anchor, `resolve_backtrace` maps the anchored frame
constructor over the parsed addresses, the base taken from the head. -/
theorem resolve_backtrace_anchored (backtrace : List String) (platform : String)
    (t : SymbolTable) (anchor : Int) (hcho : t.crash_handler_offset = some anchor) :
    resolve_backtrace backtrace platform (some t)
      = (backtrace.map (fun s => (pyParseHex s).getD 0)).map
          (anchorFrame platform t
            ((backtrace.map (fun s => (pyParseHex s).getD 0)).headD 0 - anchor)) := by
  by_cases hbt : backtrace = []
  · subst hbt; simp [resolve_backtrace]
  · simp [resolve_backtrace, hbt, hcho]

/-- C9: every frame `resolve_backtrace` emits with `is_shared_lib = true`
carries exactly the fixed opaque marker `"<shared lib>"` as its resolved
text, for every backtrace, platform and symbol-table state. -/
theorem C9_shared_lib_marker (backtrace : List String) (platform : String)
    (symbols : Option SymbolTable) :
    ∀ f ∈ resolve_backtrace backtrace platform symbols,
      f.is_shared_lib = true → f.resolved = "<shared lib>" := by
  intro f hf hlib
  have hraw : ∀ a : Int, (rawFrame platform a).is_shared_lib = true →
      (rawFrame platform a).resolved = "<shared lib>" := by
    intro a
    unfold rawFrame
    by_cases hl : is_shared_lib_addr a platform <;> simp [hl]
  have hanch : ∀ (t : SymbolTable) (b a : Int),
      (anchorFrame platform t b a).is_shared_lib = true →
      (anchorFrame platform t b a).resolved = "<shared lib>" := by
    intro t b a
    unfold anchorFrame
    by_cases hl : is_shared_lib_addr a platform <;> simp [hl]
  rcases symbols with _ | t
  · rw [resolve_backtrace_degraded _ _ _ (Or.inl rfl)] at hf
    obtain ⟨a, _, rfl⟩ := List.mem_map.mp hf
    exact hraw a hlib
  · cases hcho : t.crash_handler_offset with
    | none =>
      rw [resolve_backtrace_degraded _ _ _ (Or.inr ⟨t, rfl, hcho⟩)] at hf
      obtain ⟨a, _, rfl⟩ := List.mem_map.mp hf
      exact hraw a hlib
    | some anchor =>
      rw [resolve_backtrace_anchored _ _ t anchor hcho] at hf
      obtain ⟨a, _, rfl⟩ := List.mem_map.mp hf
      exact hanch t _ a hlib

/-- Witness for C9: a concrete `pi32` shared-library frame. -/
theorem C9_shared_lib_marker_witness :
    (rawFrame "pi32" 0xf0000000).resolved = "<shared lib>" :=
  C9_shared_lib_marker ["0xf0000000"] "pi32" none (rawFrame "pi32" 0xf0000000)
    (by decide) (by decide)

/- ------------------------------------------------------------------
   C2: the spec's end-to-end example
   ------------------------------------------------------------------ -/

/-- C2: on the example table the recorded anchor offset is 0x1100; run A's
first address parses and yields ASLR base 0xaaaa0000, run B's yields
0xaaaa4000; both runs resolve to
`["crash_signal_handler", "foo+0x10", "bar+0x10"]` and receive the same
signature. -/
theorem C2_end_to_end_example :
    exampleTable.crash_handler_offset = some 0x1100 ∧
    (pyParseHex "0xaaaa1100").getD 0 - (exampleTable.crash_handler_offset).getD 0
      = 0xaaaa0000 ∧
    (resolve_backtrace ["0xaaaa1100", "0xaaaa1060", "0xaaaa1210"] "pi"
        (some exampleTable)).map Frame.resolved
      = ["crash_signal_handler", "foo+0x10", "bar+0x10"] ∧
    (pyParseHex "0xaaaa5100").getD 0 - (exampleTable.crash_handler_offset).getD 0
      = 0xaaaa4000 ∧
    (resolve_backtrace ["0xaaaa5100", "0xaaaa5060", "0xaaaa5210"] "pi"
        (some exampleTable)).map Frame.resolved
      = ["crash_signal_handler", "foo+0x10", "bar+0x10"] ∧
    compute_signature (resolve_backtrace ["0xaaaa1100", "0xaaaa1060", "0xaaaa1210"]
        "pi" (some exampleTable))
      = compute_signature (resolve_backtrace ["0xaaaa5100", "0xaaaa5060", "0xaaaa5210"]
        "pi" (some exampleTable)) := by
  decide

/- ------------------------------------------------------------------
   C5: degraded-mode passthrough
   ------------------------------------------------------------------ -/

/-- C5: when the table is absent or its anchor offset unset,
`resolve_backtrace` emits one passthrough frame per input address (the opaque
marker for shared-library addresses, the bare hex form otherwise); the
resulting signature does not depend on which degraded symbol state was in
effect, and it is a function of the parsed input addresses alone. -/
theorem C5_degraded_passthrough (backtrace : List String) (platform : String)
    (symbols : Option SymbolTable)
    (hdeg : symbols = none ∨ ∃ t, symbols = some t ∧ t.crash_handler_offset = none) :
    resolve_backtrace backtrace platform symbols
      = backtrace.map (fun s =>
          { addr := pyHex0x ((pyParseHex s).getD 0)
            resolved :=
              if is_shared_lib_addr ((pyParseHex s).getD 0) platform then "<shared lib>"
              else pyHex0x ((pyParseHex s).getD 0)
            is_shared_lib := is_shared_lib_addr ((pyParseHex s).getD 0) platform }) ∧
    (∀ symbols2 : Option SymbolTable,
      (symbols2 = none ∨ ∃ t, symbols2 = some t ∧ t.crash_handler_offset = none) →
      compute_signature (resolve_backtrace backtrace platform symbols)
        = compute_signature (resolve_backtrace backtrace platform symbols2)) ∧
    (∀ backtrace2 : List String,
      backtrace2.map (fun s => (pyParseHex s).getD 0)
        = backtrace.map (fun s => (pyParseHex s).getD 0) →
      compute_signature (resolve_backtrace backtrace2 platform symbols)
        = compute_signature (resolve_backtrace backtrace platform symbols)) := by
  refine ⟨?_, ?_, ?_⟩
  · rw [resolve_backtrace_degraded backtrace platform symbols hdeg, List.map_map]
    exact List.map_congr_left (fun s _ => rfl)
  · intro symbols2 hdeg2
    rw [resolve_backtrace_degraded backtrace platform symbols hdeg,
      resolve_backtrace_degraded backtrace platform symbols2 hdeg2]
  · intro backtrace2 h2
    rw [resolve_backtrace_degraded backtrace platform symbols hdeg,
      resolve_backtrace_degraded backtrace2 platform symbols hdeg, h2]

/-- Witness for C5: a concrete degraded run on `pi32` with one library and
one main-binary address, compared against an anchorless table. -/
theorem C5_degraded_passthrough_witness :
    resolve_backtrace ["0xf0000000", "0x1000"] "pi32" none
      = [{ addr := "0xf0000000", resolved := "<shared lib>", is_shared_lib := true },
         { addr := "0x1000", resolved := "0x1000", is_shared_lib := false }] ∧
    compute_signature (resolve_backtrace ["0xf0000000", "0x1000"] "pi32" none)
      = compute_signature (resolve_backtrace ["0xf0000000", "0x1000"] "pi32"
          (some (SymbolTable.mk [0x500] ["main"] none))) := by
  constructor
  · exact (C5_degraded_passthrough ["0xf0000000", "0x1000"] "pi32" none
      (Or.inl rfl)).1.trans (by decide)
  · exact (C5_degraded_passthrough ["0xf0000000", "0x1000"] "pi32" none
      (Or.inl rfl)).2.1 (some (SymbolTable.mk [0x500] ["main"] none))
      (Or.inr ⟨_, rfl, rfl⟩)

/- ------------------------------------------------------------------
   Signature-engine congruence lemmas
   ------------------------------------------------------------------ -/

theorem primaryLoop_map_congr {α : Type} (F G : α → Frame) :
    ∀ l : List α,
    (∀ a ∈ l, (F a).is_shared_lib = (G a).is_shared_lib ∧ (F a).resolved = (G a).resolved) →
    ∀ i : Nat, primaryLoop i (l.map F) = primaryLoop i (l.map G)
  | [], _, _ => rfl
  | a :: rest, h, i => by
    have hhd := h a (List.mem_cons_self a rest)
    have htl := fun b hb => h b (List.mem_cons_of_mem a hb)
    simp only [List.map_cons, primaryLoop]
    by_cases hi : i = 0
    · simp only [hi, if_true]
      exact primaryLoop_map_congr F G rest htl (0 + 1)
    · simp only [hi, if_false]
      rw [hhd.1]
      by_cases hl : (G a).is_shared_lib
      · simp only [hl, if_true]
        exact primaryLoop_map_congr F G rest htl (i + 1)
      · simp only [hl, if_false]
        rw [hhd.2, primaryLoop_map_congr F G rest htl (i + 1)]

theorem has_symbols_any_congr {α : Type} (F G : α → Frame) :
    ∀ l : List α,
    (∀ a ∈ l, (F a).is_shared_lib = (G a).is_shared_lib ∧
      ((F a).is_shared_lib = false →
        pyStartsWith (F a).resolved "0x" = pyStartsWith (G a).resolved "0x")) →
    (l.map F).any (fun f => !f.is_shared_lib && !pyStartsWith f.resolved "0x")
      = (l.map G).any (fun f => !f.is_shared_lib && !pyStartsWith f.resolved "0x")
  | [], _ => rfl
  | a :: rest, h => by
    have hhd := h a (List.mem_cons_self a rest)
    have htl := fun b hb => h b (List.mem_cons_of_mem a hb)
    simp only [List.map_cons, List.any_cons, has_symbols_any_congr F G rest htl]
    congr 1
    rw [← hhd.1]
    by_cases hl : (F a).is_shared_lib
    · simp [hl]
    · simp only [Bool.not_eq_true] at hl
      simp [hl, hhd.2 hl]

theorem has_symbols_map_congr {α : Type} (F G : α → Frame) (l : List α)
    (h : ∀ a ∈ l, (F a).is_shared_lib = (G a).is_shared_lib ∧
      ((F a).is_shared_lib = false →
        pyStartsWith (F a).resolved "0x" = pyStartsWith (G a).resolved "0x")) :
    has_symbols_check (l.map F) = has_symbols_check (l.map G) := by
  unfold has_symbols_check
  rw [← List.map_drop, ← List.map_drop]
  exact has_symbols_any_congr F G (l.drop 1)
    (fun a ha => h a (List.mem_of_mem_drop ha))

theorem fallbackLoop_map_shift {α : Type} (F G : α → Frame) (c : Int) :
    ∀ l : List α,
    (∀ a ∈ l, (F a).is_shared_lib = (G a).is_shared_lib ∧
      ((F a).is_shared_lib = false →
        ∃ v : Int, pyParseHex (F a).addr = some v ∧ pyParseHex (G a).addr = some (v + c))) →
    ∀ (b : Int) (i : Nat),
      fallbackLoop b i (l.map F) = fallbackLoop (b + c) i (l.map G)
  | [], _, _, _ => rfl
  | a :: rest, h, b, i => by
    have hhd := h a (List.mem_cons_self a rest)
    have htl := fun x hx => h x (List.mem_cons_of_mem a hx)
    simp only [List.map_cons, fallbackLoop]
    by_cases hi : i = 0
    · simp only [hi, if_true]
      exact fallbackLoop_map_shift F G c rest htl b (0 + 1)
    · simp only [hi, if_false]
      rw [hhd.1]
      by_cases hl : (G a).is_shared_lib
      · simp only [hl, if_true]
        exact fallbackLoop_map_shift F G c rest htl b (i + 1)
      · simp only [hl, if_false]
        have hfl : (F a).is_shared_lib = false := by rw [hhd.1]; simp [hl]
        obtain ⟨v, hv1, hv2⟩ := hhd.2 hfl
        rw [hv1, hv2]
        have harith : v + c - (b + c) = v - b := by ring
        show ("rel+" ++ pyHexHash (v - b)) :: fallbackLoop b (i + 1) (List.map F rest)
          = ("rel+" ++ pyHexHash (v + c - (b + c))) :: fallbackLoop (b + c) (i + 1) (List.map G rest)
        rw [harith, fallbackLoop_map_shift F G c rest htl b (i + 1)]

/-- The full signature congruence: frames arising as images of one list under
two frame constructors that agree on the shared-library flag, whose raw
addresses differ by the fixed shift `c` on non-library frames, and whose
resolved texts either agree everywhere or put both runs on the fallback path,
hash identically.  The head element must be a non-library frame (the
anchor-frame convention). -/
theorem compute_signature_map_shift {α : Type} (F G : α → Frame) (c : Int)
    (a0 : α) (rest : List α)
    (hflags : ∀ a ∈ a0 :: rest, (F a).is_shared_lib = (G a).is_shared_lib)
    (hok : ∀ a ∈ a0 :: rest, (F a).is_shared_lib = false →
      pyStartsWith (F a).resolved "0x" = pyStartsWith (G a).resolved "0x")
    (hres : (∀ a ∈ a0 :: rest, (F a).resolved = (G a).resolved) ∨
      has_symbols_check ((a0 :: rest).map F) = false)
    (haddr : ∀ a ∈ a0 :: rest, (F a).is_shared_lib = false →
      ∃ v : Int, pyParseHex (F a).addr = some v ∧ pyParseHex (G a).addr = some (v + c))
    (h0 : (F a0).is_shared_lib = false) :
    compute_signature ((a0 :: rest).map F) = compute_signature ((a0 :: rest).map G) := by
  have hsym := has_symbols_map_congr F G (a0 :: rest)
    (fun a ha => ⟨hflags a ha, hok a ha⟩)
  have hbase : ∀ H : α → Frame, (H a0).is_shared_lib = false →
      fallbackBase ((a0 :: rest).map H) = pyParseHex (H a0).addr := by
    intro H hH
    unfold fallbackBase
    simp only [List.map_cons, List.find?_cons, hH, Bool.not_false]
  have h0G : (G a0).is_shared_lib = false := by
    rw [← hflags a0 (List.mem_cons_self a0 rest)]
    exact h0
  obtain ⟨v0, hv1, hv2⟩ := haddr a0 (List.mem_cons_self a0 rest) h0
  have hfb : (match fallbackBase ((a0 :: rest).map F) with
        | none => []
        | some base_addr => fallbackLoop base_addr 0 ((a0 :: rest).map F))
      = (match fallbackBase ((a0 :: rest).map G) with
        | none => []
        | some base_addr => fallbackLoop base_addr 0 ((a0 :: rest).map G)) := by
    rw [hbase F h0, hbase G h0G, hv1, hv2]
    exact fallbackLoop_map_shift F G c (a0 :: rest)
      (fun a ha => ⟨hflags a ha, haddr a ha⟩) v0 0
  unfold compute_signature
  rw [hsym]
  by_cases hs : has_symbols_check ((a0 :: rest).map G)
  · simp only [hs, if_true]
    rcases hres with hres | hnos
    · rw [primaryLoop_map_congr F G (a0 :: rest)
        (fun a ha => ⟨hflags a ha, hres a ha⟩) 0]
    · rw [← hsym, hnos] at hs
      exact absurd hs (by simp)
  · have hsG : has_symbols_check ((a0 :: rest).map G) = false := by
      simpa using hs
    simp only [hsG, Bool.false_eq_true, if_false, hfb]

/- ------------------------------------------------------------------
   Frame accessor lemmas
   ------------------------------------------------------------------ -/

theorem anchorFrame_flag (platform : String) (t : SymbolTable) (b a : Int) :
    (anchorFrame platform t b a).is_shared_lib = is_shared_lib_addr a platform := by
  unfold anchorFrame
  by_cases h : is_shared_lib_addr a platform <;> simp [h]

theorem anchorFrame_addr (platform : String) (t : SymbolTable) (b a : Int) :
    (anchorFrame platform t b a).addr = pyHex0x a := by
  unfold anchorFrame
  by_cases h : is_shared_lib_addr a platform <;> simp [h]

theorem anchorFrame_resolved_lib (platform : String) (t : SymbolTable) (b a : Int)
    (h : is_shared_lib_addr a platform = true) :
    (anchorFrame platform t b a).resolved = "<shared lib>" := by
  unfold anchorFrame
  simp [h]

theorem anchorFrame_resolved_nonlib (platform : String) (t : SymbolTable) (b a : Int)
    (h : is_shared_lib_addr a platform = false) :
    (anchorFrame platform t b a).resolved = t.lookup (a - b) := by
  unfold anchorFrame
  simp [h]

theorem rawFrame_flag (platform : String) (a : Int) :
    (rawFrame platform a).is_shared_lib = is_shared_lib_addr a platform := rfl

theorem rawFrame_addr (platform : String) (a : Int) :
    (rawFrame platform a).addr = pyHex0x a := rfl

theorem rawFrame_resolved_nonlib (platform : String) (a : Int)
    (h : is_shared_lib_addr a platform = false) :
    (rawFrame platform a).resolved = pyHex0x a := by
  unfold rawFrame
  simp [h]

/-- Raw passthrough frames never look symbolic: the `has_symbols` test fails. -/
theorem has_symbols_rawFrame_comp {α : Type} (platform : String) (φ : α → Int)
    (l : List α) :
    has_symbols_check (l.map (fun a => rawFrame platform (φ a))) = false := by
  unfold has_symbols_check
  rw [List.any_eq_false]
  intro f hf
  obtain ⟨a, _, rfl⟩ := List.mem_map.mp (List.mem_of_mem_drop hf)
  by_cases hl : is_shared_lib_addr (φ a) platform
  · simp [rawFrame_flag, hl]
  · simp only [Bool.not_eq_true] at hl
    simp [rawFrame_flag, hl, rawFrame_resolved_nonlib platform (φ a) hl,
      pyStartsWith_pyHex0x]

/- ------------------------------------------------------------------
   C1: ASLR invariance
   ------------------------------------------------------------------ -/

/-- C1: for every platform, every symbol table with a recorded anchor offset,
and every backtrace of hex address strings whose frame 0 is not a
shared-library address, adding one constant to every non-shared-library
address without changing any frame's classification leaves every frame's
resolved text and the computed signature unchanged; with no table or no
anchor, the signature is still unchanged via the relative-offset fallback. -/
theorem C1_aslr_invariance (platform : String) (addrs : List Nat) (c : Nat)
    (h0 : addrs ≠ [])
    (hlib0 : is_shared_lib_addr ((addrs.headD 0 : Nat) : Int) platform = false)
    (hpres : ∀ a ∈ addrs,
      is_shared_lib_addr ((shiftAddr platform c a : Nat) : Int) platform
        = is_shared_lib_addr ((a : Nat) : Int) platform) :
    (∀ t : SymbolTable, t.crash_handler_offset.isSome = true →
      ((resolve_backtrace (addrs.map (fun a => pyHex0x ((a : Nat) : Int)))
          platform (some t)).map Frame.resolved
        = (resolve_backtrace
            (addrs.map (fun a => pyHex0x ((shiftAddr platform c a : Nat) : Int)))
            platform (some t)).map Frame.resolved)
      ∧ compute_signature (resolve_backtrace
            (addrs.map (fun a => pyHex0x ((a : Nat) : Int))) platform (some t))
        = compute_signature (resolve_backtrace
            (addrs.map (fun a => pyHex0x ((shiftAddr platform c a : Nat) : Int)))
            platform (some t)))
    ∧ (∀ symbols : Option SymbolTable,
      (symbols = none ∨ ∃ t, symbols = some t ∧ t.crash_handler_offset = none) →
      compute_signature (resolve_backtrace
          (addrs.map (fun a => pyHex0x ((a : Nat) : Int))) platform symbols)
        = compute_signature (resolve_backtrace
            (addrs.map (fun a => pyHex0x ((shiftAddr platform c a : Nat) : Int)))
            platform symbols)) := by
  obtain ⟨a0, rest, rfl⟩ := List.exists_cons_of_ne_nil h0
  have hhd : (a0 :: rest).headD 0 = a0 := rfl
  rw [hhd] at hlib0
  have hshift0 : shiftAddr platform c a0 = a0 + c := by
    unfold shiftAddr
    simp [hlib0]
  have hparse : ∀ g : Nat → Nat,
      ((a0 :: rest).map (fun a => pyHex0x ((g a : Nat) : Int))).map
          (fun s => (pyParseHex s).getD 0)
        = (a0 :: rest).map (fun a => ((g a : Nat) : Int)) := by
    intro g
    rw [List.map_map]
    refine List.map_congr_left (fun a _ => ?_)
    show (pyParseHex (pyHex0x ((g a : Nat) : Int))).getD 0 = ((g a : Nat) : Int)
    rw [pyParseHex_pyHex0x (g a)]
    rfl
  have hparse1 := hparse (fun a => a)
  have hparse2 := hparse (fun a => shiftAddr platform c a)
  constructor
  · intro t hcho'
    obtain ⟨anchor, hcho⟩ := Option.isSome_iff_exists.mp hcho'
    have hr1 : resolve_backtrace ((a0 :: rest).map (fun a => pyHex0x ((a : Nat) : Int)))
          platform (some t)
        = (a0 :: rest).map
            (fun a => anchorFrame platform t ((a0 : Int) - anchor) ((a : Nat) : Int)) := by
      rw [resolve_backtrace_anchored _ _ t anchor hcho, hparse1, List.map_map]
      rfl
    have hr2 : resolve_backtrace
          ((a0 :: rest).map (fun a => pyHex0x ((shiftAddr platform c a : Nat) : Int)))
          platform (some t)
        = (a0 :: rest).map
            (fun a => anchorFrame platform t (((a0 : Int) + (c : Int)) - anchor)
              ((shiftAddr platform c a : Nat) : Int)) := by
      rw [resolve_backtrace_anchored _ _ t anchor hcho, hparse2, List.map_map]
      have hh : ((a0 :: rest).map
          (fun a => ((shiftAddr platform c a : Nat) : Int))).headD 0
          = ((a0 : Int) + (c : Int)) := by
        simp only [List.map_cons, List.headD_cons, hshift0]
        push_cast
        ring
      rw [hh]
      rfl
    -- pointwise facts
    have hflags : ∀ a ∈ a0 :: rest,
        (anchorFrame platform t ((a0 : Int) - anchor) ((a : Nat) : Int)).is_shared_lib
          = (anchorFrame platform t (((a0 : Int) + (c : Int)) - anchor)
              ((shiftAddr platform c a : Nat) : Int)).is_shared_lib := by
      intro a ha
      rw [anchorFrame_flag, anchorFrame_flag, hpres a ha]
    have hres : ∀ a ∈ a0 :: rest,
        (anchorFrame platform t ((a0 : Int) - anchor) ((a : Nat) : Int)).resolved
          = (anchorFrame platform t (((a0 : Int) + (c : Int)) - anchor)
              ((shiftAddr platform c a : Nat) : Int)).resolved := by
      intro a ha
      by_cases hl : is_shared_lib_addr ((a : Nat) : Int) platform
      · have hsa : shiftAddr platform c a = a := by
          unfold shiftAddr
          simp [hl]
        rw [hsa]
        rw [anchorFrame_resolved_lib _ _ _ _ hl, anchorFrame_resolved_lib _ _ _ _ hl]
      · simp only [Bool.not_eq_true] at hl
        have hsa : shiftAddr platform c a = a + c := by
          unfold shiftAddr
          simp [hl]
        have hl2 : is_shared_lib_addr ((shiftAddr platform c a : Nat) : Int) platform
            = false := by rw [hpres a ha, hl]
        rw [anchorFrame_resolved_nonlib _ _ _ _ hl,
          anchorFrame_resolved_nonlib _ _ _ _ hl2, hsa]
        congr 1
        push_cast
        ring
    have haddr : ∀ a ∈ a0 :: rest,
        (anchorFrame platform t ((a0 : Int) - anchor) ((a : Nat) : Int)).is_shared_lib
          = false →
        ∃ v : Int,
          pyParseHex (anchorFrame platform t ((a0 : Int) - anchor)
            ((a : Nat) : Int)).addr = some v ∧
          pyParseHex (anchorFrame platform t (((a0 : Int) + (c : Int)) - anchor)
            ((shiftAddr platform c a : Nat) : Int)).addr = some (v + (c : Int)) := by
      intro a ha hl
      rw [anchorFrame_flag] at hl
      have hsa : shiftAddr platform c a = a + c := by
        unfold shiftAddr
        simp [hl]
      refine ⟨(a : Int), ?_, ?_⟩
      · rw [anchorFrame_addr, pyParseHex_pyHex0x a]
      · rw [anchorFrame_addr, hsa, pyParseHex_pyHex0x (a + c)]
        push_cast
        ring_nf
    have h0f : (anchorFrame platform t ((a0 : Int) - anchor)
        ((a0 : Nat) : Int)).is_shared_lib = false := by
      rw [anchorFrame_flag]
      exact hlib0
    constructor
    · rw [hr1, hr2, List.map_map, List.map_map]
      exact List.map_congr_left (fun a ha => hres a ha)
    · rw [hr1, hr2]
      exact compute_signature_map_shift _ _ (c : Int) a0 rest hflags
        (fun a ha hl => by rw [hres a ha]) (Or.inl hres) haddr h0f
  · intro symbols hdeg
    rw [resolve_backtrace_degraded _ _ _ hdeg, resolve_backtrace_degraded _ _ _ hdeg,
      hparse1, hparse2, List.map_map, List.map_map]
    have hflags : ∀ a ∈ a0 :: rest,
        (rawFrame platform ((a : Nat) : Int)).is_shared_lib
          = (rawFrame platform ((shiftAddr platform c a : Nat) : Int)).is_shared_lib := by
      intro a ha
      rw [rawFrame_flag, rawFrame_flag, hpres a ha]
    have hok : ∀ a ∈ a0 :: rest,
        (rawFrame platform ((a : Nat) : Int)).is_shared_lib = false →
        pyStartsWith (rawFrame platform ((a : Nat) : Int)).resolved "0x"
          = pyStartsWith (rawFrame platform
              ((shiftAddr platform c a : Nat) : Int)).resolved "0x" := by
      intro a ha hl
      rw [rawFrame_flag] at hl
      have hl2 : is_shared_lib_addr ((shiftAddr platform c a : Nat) : Int) platform
          = false := by rw [hpres a ha, hl]
      rw [rawFrame_resolved_nonlib _ _ hl, rawFrame_resolved_nonlib _ _ hl2,
        pyStartsWith_pyHex0x, pyStartsWith_pyHex0x]
    have haddr : ∀ a ∈ a0 :: rest,
        (rawFrame platform ((a : Nat) : Int)).is_shared_lib = false →
        ∃ v : Int,
          pyParseHex (rawFrame platform ((a : Nat) : Int)).addr = some v ∧
          pyParseHex (rawFrame platform
            ((shiftAddr platform c a : Nat) : Int)).addr = some (v + (c : Int)) := by
      intro a ha hl
      rw [rawFrame_flag] at hl
      have hsa : shiftAddr platform c a = a + c := by
        unfold shiftAddr
        simp [hl]
      refine ⟨(a : Int), ?_, ?_⟩
      · rw [rawFrame_addr, pyParseHex_pyHex0x a]
      · rw [rawFrame_addr, hsa, pyParseHex_pyHex0x (a + c)]
        push_cast
        ring_nf
    have h0f : (rawFrame platform ((a0 : Nat) : Int)).is_shared_lib = false := by
      rw [rawFrame_flag]
      exact hlib0
    exact compute_signature_map_shift _ _ (c : Int) a0 rest hflags hok
      (Or.inr (has_symbols_rawFrame_comp platform _ (a0 :: rest))) haddr h0f

/-- Witness for C1: the spec's example backtrace shifted by 0x4000, both with
the example table and with no table at all. -/
theorem C1_aslr_invariance_witness :
    compute_signature (resolve_backtrace ["0xaaaa1100", "0xaaaa1060"] "pi"
        (some exampleTable))
      = compute_signature (resolve_backtrace ["0xaaaa5100", "0xaaaa5060"] "pi"
        (some exampleTable)) ∧
    compute_signature (resolve_backtrace ["0xaaaa1100", "0xaaaa1060"] "pi" none)
      = compute_signature (resolve_backtrace ["0xaaaa5100", "0xaaaa5060"] "pi" none) := by
  have h := C1_aslr_invariance "pi" [0xaaaa1100, 0xaaaa1060] 0x4000
    (by decide) (by decide) (by decide)
  constructor
  · exact (h.1 exampleTable (by decide)).2
  · exact h.2 none (Or.inl rfl)

/- ------------------------------------------------------------------
   Loop / combinator correspondence (for C4)
   ------------------------------------------------------------------ -/

theorem primaryLoop_ge_one : ∀ (l : List Frame) (i : Nat), i ≠ 0 →
    primaryLoop i l = (l.filter (fun f => !f.is_shared_lib)).map
      (fun f => stripPlusOffset f.resolved)
  | [], _, _ => rfl
  | f :: rest, i, hi => by
    simp only [primaryLoop, hi, if_false, List.filter_cons]
    by_cases hl : f.is_shared_lib
    · simp [hl, primaryLoop_ge_one rest (i + 1) (by omega)]
    · simp [hl, primaryLoop_ge_one rest (i + 1) (by omega)]

theorem primaryLoop_zero (frames : List Frame) :
    primaryLoop 0 frames = specPrimaryNames frames := by
  cases frames with
  | nil => rfl
  | cons f rest =>
    show primaryLoop 1 rest = _
    rw [primaryLoop_ge_one rest 1 (by omega)]
    rfl

theorem fallbackLoop_ge_one : ∀ (l : List Frame) (b : Int) (i : Nat), i ≠ 0 →
    fallbackLoop b i l = (l.filter (fun f => !f.is_shared_lib)).map
      (fun f => match pyParseHex f.addr with
        | some a => "rel+" ++ pyHexHash (a - b)
        | none => f.resolved)
  | [], _, _, _ => rfl
  | f :: rest, b, i, hi => by
    simp only [fallbackLoop, hi, if_false, List.filter_cons]
    by_cases hl : f.is_shared_lib
    · simp [hl, fallbackLoop_ge_one rest b (i + 1) (by omega)]
    · simp [hl, fallbackLoop_ge_one rest b (i + 1) (by omega)]

theorem fallbackLoop_zero (frames : List Frame) (b : Int) :
    fallbackLoop b 0 frames = ((frames.drop 1).filter (fun f => !f.is_shared_lib)).map
      (fun f => match pyParseHex f.addr with
        | some a => "rel+" ++ pyHexHash (a - b)
        | none => f.resolved) := by
  cases frames with
  | nil => rfl
  | cons f rest =>
    show fallbackLoop b 1 rest = _
    rw [fallbackLoop_ge_one rest b 1 (by omega)]
    rfl

theorem fallbackBase_eq_bind (frames : List Frame) :
    fallbackBase frames = (frames.find? (fun f => !f.is_shared_lib)).bind
      (fun f => pyParseHex f.addr) := by
  unfold fallbackBase
  cases frames.find? (fun f => !f.is_shared_lib) <;> rfl

/- ------------------------------------------------------------------
   C4: the compute_signature contract
   ------------------------------------------------------------------ -/

/-- C4: provided every frame's recorded address string parses (as every
frame emitted by the resolver does), `compute_signature` follows the spec's
three-way contract: with at least one symbol-looking frame after frame 0 it
hashes (first 8 hex characters of SHA-256) the newline-joined stripped
resolved names of all non-frame-0 non-library frames, and that list is
nonempty; otherwise it hashes the `rel+0xDELTA` tokens relative to the first
non-library frame's raw address, or returns the literal `"unknown"` when no
tokens remain. -/
theorem C4_compute_signature_contract (frames : List Frame)
    (hp : ∀ f ∈ frames, (pyParseHex f.addr).isSome = true) :
    (has_symbols_check frames = true ↔
      ∃ f ∈ frames.drop 1, f.is_shared_lib = false ∧
        pyStartsWith f.resolved "0x" = false) ∧
    (has_symbols_check frames = true →
      compute_signature frames = hash8 (joinNL (specPrimaryNames frames)) ∧
      specPrimaryNames frames ≠ []) ∧
    (has_symbols_check frames = false →
      compute_signature frames =
        (if specFallbackTokens frames = [] then "unknown"
         else hash8 (joinNL (specFallbackTokens frames)))) := by
  have hiff : has_symbols_check frames = true ↔
      ∃ f ∈ frames.drop 1, f.is_shared_lib = false ∧
        pyStartsWith f.resolved "0x" = false := by
    unfold has_symbols_check
    rw [List.any_eq_true]
    constructor
    · rintro ⟨f, hf, hpred⟩
      simp only [Bool.and_eq_true, Bool.not_eq_true'] at hpred
      exact ⟨f, hf, hpred.1, hpred.2⟩
    · rintro ⟨f, hf, h1, h2⟩
      exact ⟨f, hf, by simp [h1, h2]⟩
  refine ⟨hiff, ?_, ?_⟩
  · intro hs
    have hne : specPrimaryNames frames ≠ [] := by
      obtain ⟨f, hf, h1, _⟩ := hiff.mp hs
      unfold specPrimaryNames
      intro hnil
      rw [List.map_eq_nil_iff, List.filter_eq_nil_iff] at hnil
      exact hnil f hf (by simp [h1])
    refine ⟨?_, hne⟩
    unfold compute_signature
    simp only [hs, if_true, primaryLoop_zero]
    rw [if_neg hne]
  · intro hs
    unfold compute_signature
    simp only [hs, Bool.false_eq_true, if_false]
    rw [fallbackBase_eq_bind]
    unfold specFallbackTokens
    cases hfind : (frames.find? (fun f => !f.is_shared_lib)).bind
        (fun f => pyParseHex f.addr) with
    | none => rfl
    | some b =>
      dsimp only
      rw [fallbackLoop_zero frames b]
      have hmap : ((frames.drop 1).filter (fun f => !f.is_shared_lib)).map
          (fun f => match pyParseHex f.addr with
            | some a => "rel+" ++ pyHexHash (a - b)
            | none => f.resolved)
          = ((frames.drop 1).filter (fun f => !f.is_shared_lib)).map
            (fun f => "rel+" ++ pyHexHash ((pyParseHex f.addr).getD 0 - b)) := by
        refine List.map_congr_left (fun f hf => ?_)
        have hff : f ∈ frames :=
          List.mem_of_mem_drop (List.mem_filter.mp hf).1
        obtain ⟨a, ha⟩ := Option.isSome_iff_exists.mp (hp f hff)
        rw [ha]
        rfl
      rw [hmap]

/-- Witness for C4: a symbol-bearing frame pair and a raw-hex frame pair. -/
theorem C4_compute_signature_contract_witness :
    compute_signature
        [{ addr := "0x1000", resolved := "crash_signal_handler", is_shared_lib := false },
         { addr := "0x1010", resolved := "foo+0x10", is_shared_lib := false }]
      = hash8 (joinNL (specPrimaryNames
        [{ addr := "0x1000", resolved := "crash_signal_handler", is_shared_lib := false },
         { addr := "0x1010", resolved := "foo+0x10", is_shared_lib := false }])) ∧
    compute_signature
        [{ addr := "0x1000", resolved := "0x1000", is_shared_lib := false },
         { addr := "0x1010", resolved := "0x1010", is_shared_lib := false }]
      = (if specFallbackTokens
            [{ addr := "0x1000", resolved := "0x1000", is_shared_lib := false },
             { addr := "0x1010", resolved := "0x1010", is_shared_lib := false }] = []
         then "unknown"
         else hash8 (joinNL (specFallbackTokens
            [{ addr := "0x1000", resolved := "0x1000", is_shared_lib := false },
             { addr := "0x1010", resolved := "0x1010", is_shared_lib := false }]))) := by
  constructor
  · exact ((C4_compute_signature_contract _ (by decide)).2.1 (by decide)).1
  · exact (C4_compute_signature_contract _ (by decide)).2.2 (by decide)

/- ------------------------------------------------------------------
   C10: the garbage-suppression marker inside signatures
   ------------------------------------------------------------------ -/

theorem natHexChars_no_plus (m : Nat) : '+' ∉ natHexChars m := by
  intro hc
  have hhex := (List.all_eq_true.mp (natHexChars_all_hex m)) '+' hc
  exact absurd hhex (by decide)

theorem intHexChars_no_plus (n : Int) : '+' ∉ intHexChars n := by
  unfold intHexChars
  by_cases h : n < 0
  · simp only [h, if_true]
    intro hc
    rcases List.mem_cons.mp hc with hc | hc
    · exact absurd hc (by decide)
    · exact natHexChars_no_plus n.natAbs hc
  · simp only [h, if_false]
    exact natHexChars_no_plus n.natAbs

theorem plus_not_mem_marker (off : Int) :
    '+' ∉ ("(unknown @ " ++ pyHex0x off ++ ")").toList := by
  show '+' ∉ ("(unknown @ " ++ pyHex0x off ++ ")").data
  rw [String.data_append, String.data_append]
  intro hc
  rcases List.mem_append.mp hc with hc | hc
  · rcases List.mem_append.mp hc with hc | hc
    · exact absurd hc (by decide)
    · have hdx : (pyHex0x off).data = '0' :: 'x' :: intHexChars off := rfl
      rw [hdx] at hc
      rcases List.mem_cons.mp hc with hc | hc
      · exact absurd hc (by decide)
      rcases List.mem_cons.mp hc with hc | hc
      · exact absurd hc (by decide)
      · exact intHexChars_no_plus off hc
  · exact absurd hc (by decide)

theorem pyRfind_marker (off : Int) :
    pyRfind ("(unknown @ " ++ pyHex0x off ++ ")") "+0x" = -1 := by
  unfold pyRfind
  have hfilter : (List.range
        (("(unknown @ " ++ pyHex0x off ++ ")").toList.length + 1)).filter
      (fun i => ("+0x".toList).isPrefixOf
        (("(unknown @ " ++ pyHex0x off ++ ")").toList.drop i)) = [] := by
    rw [List.filter_eq_nil_iff]
    intro i _
    intro hpre
    obtain ⟨t, ht⟩ := List.isPrefixOf_iff_prefix.mp hpre
    have hmem : '+' ∈ ("(unknown @ " ++ pyHex0x off ++ ")").toList.drop i := by
      rw [← ht]
      show '+' ∈ '+' :: ('0' :: 'x' :: []) ++ t
      simp
    exact plus_not_mem_marker off (List.mem_of_mem_drop hmem)
  rw [hfilter]
  rfl

theorem stripPlusOffset_marker (off : Int) :
    stripPlusOffset ("(unknown @ " ++ pyHex0x off ++ ")")
      = "(unknown @ " ++ pyHex0x off ++ ")" := by
  unfold stripPlusOffset
  rw [pyRfind_marker off]
  rfl

theorem pyStartsWith_marker (off : Int) :
    pyStartsWith ("(unknown @ " ++ pyHex0x off ++ ")") "0x" = false := by
  unfold pyStartsWith
  have h : ("(unknown @ " ++ pyHex0x off ++ ")").toList
      = '(' :: ("unknown @ ".toList ++ (pyHex0x off).toList ++ [')']) := by
    show ("(unknown @ " ++ pyHex0x off ++ ")").data = _
    rw [String.data_append, String.data_append]
    rfl
  rw [h]
  rfl

/-- C10: the garbage-suppression marker `(unknown @ 0x...)` counts as a
resolved symbol for the `has_symbols` test (which only rejects texts starting
with `0x`), survives suffix-stripping verbatim (it never contains `+0x`), and
so two crashes identical except for the offset at which the unwind landed in
a symbol gap hash to different signatures. -/
theorem C10_gap_offsets_split_signatures :
    (∀ (frames : List Frame) (f : Frame), f ∈ frames.drop 1 →
      f.is_shared_lib = false → pyStartsWith f.resolved "0x" = false →
      has_symbols_check frames = true) ∧
    (∀ off : Int,
      pyStartsWith ("(unknown @ " ++ pyHex0x off ++ ")") "0x" = false ∧
      stripPlusOffset ("(unknown @ " ++ pyHex0x off ++ ")")
        = "(unknown @ " ++ pyHex0x off ++ ")") ∧
    ((resolve_backtrace ["0xaaaa1000", "0xaaaa2100"] "pi"
        (some gapTable)).map Frame.resolved
      = ["crash_signal_handler", "(unknown @ 0x2100)"] ∧
    (resolve_backtrace ["0xaaaa1000", "0xaaaa2110"] "pi"
        (some gapTable)).map Frame.resolved
      = ["crash_signal_handler", "(unknown @ 0x2110)"] ∧
    compute_signature (resolve_backtrace ["0xaaaa1000", "0xaaaa2100"] "pi"
        (some gapTable))
      ≠ compute_signature (resolve_backtrace ["0xaaaa1000", "0xaaaa2110"] "pi"
        (some gapTable))) := by
  refine ⟨?_, fun off => ⟨pyStartsWith_marker off, stripPlusOffset_marker off⟩, ?_⟩
  · intro frames f hf h1 h2
    unfold has_symbols_check
    rw [List.any_eq_true]
    exact ⟨f, hf, by simp [h1, h2]⟩
  · refine ⟨by decide, by decide, by decide⟩

/-- Witness for C10: the general conjuncts applied at the concrete marker
frame and offset of the scenario above. -/
theorem C10_gap_offsets_split_signatures_witness :
    has_symbols_check
      [{ addr := "0xaaaa1000", resolved := "crash_signal_handler", is_shared_lib := false },
       { addr := "0xaaaa2100", resolved := "(unknown @ 0x2100)", is_shared_lib := false }]
      = true ∧
    pyStartsWith ("(unknown @ " ++ pyHex0x 0x2100 ++ ")") "0x" = false ∧
    stripPlusOffset ("(unknown @ " ++ pyHex0x 0x2100 ++ ")")
      = "(unknown @ " ++ pyHex0x 0x2100 ++ ")" := by
  refine ⟨?_, (C10_gap_offsets_split_signatures.2.1 0x2100).1,
    (C10_gap_offsets_split_signatures.2.1 0x2100).2⟩
  exact C10_gap_offsets_split_signatures.1 _
    { addr := "0xaaaa2100", resolved := "(unknown @ 0x2100)", is_shared_lib := false }
    (by decide) rfl (by decide)

/- ------------------------------------------------------------------
   Aggregator lemmas (C6, C8)
   ------------------------------------------------------------------ -/

theorem bumpGroup_fields (version platform device_id : String) (uptime : Int)
    (signal_name timestamp : String) (frames : List Frame)
    (g : CrashSignatureGroup) :
    (bumpGroup version platform device_id uptime signal_name timestamp frames g).sig
        = g.sig ∧
    (bumpGroup version platform device_id uptime signal_name timestamp frames g).frames
        = g.frames ∧
    (bumpGroup version platform device_id uptime signal_name timestamp frames g).signal
        = g.signal ∧
    (bumpGroup version platform device_id uptime signal_name timestamp frames g).shallow
        = g.shallow ∧
    (bumpGroup version platform device_id uptime signal_name timestamp frames g).count
        = g.count + 1 :=
  ⟨rfl, rfl, rfl, rfl, rfl⟩

/-- One analysis step never replaces an existing group's identity fields:
each group of the incoming state reappears with the same sig, frames, signal
and shallow flag (its count either unchanged or incremented). -/
theorem crashStep_preserve (device_map : String → Option String)
    (symtab : String → String → Option SymbolTable) (override sig_filter : Option String)
    (m : List CrashSignatureGroup) (e : CrashEvent) :
    ∀ g ∈ m, ∃ g' ∈ crashStep device_map symtab override sig_filter m e,
      g'.sig = g.sig ∧ g'.frames = g.frames ∧ g'.signal = g.signal ∧
      g'.shallow = g.shallow := by
  intro g hg
  unfold crashStep
  by_cases hflt : truthyStr sig_filter ∧
      ¬pyStartsWith (crashSig device_map symtab override e) (sig_filter.getD "")
  · rw [if_pos hflt]
    exact ⟨g, hg, rfl, rfl, rfl, rfl⟩
  · rw [if_neg hflt]
    have hg1 : g ∈ (if m.any (fun g => g.sig = crashSig device_map symtab override e)
        then m
        else m ++ [newGroup (crashSig device_map symtab override e)
          (e.signal_name.getD "?") (crashFrames device_map symtab override e)]) := by
      by_cases hany : m.any (fun g => g.sig = crashSig device_map symtab override e)
      · rw [if_pos hany]; exact hg
      · rw [if_neg hany]; exact List.mem_append_left _ hg
    refine ⟨_, List.mem_map_of_mem _ hg1, ?_⟩
    by_cases hs : g.sig = crashSig device_map symtab override e
    · rw [if_pos hs]
      exact ⟨rfl, rfl, rfl, rfl⟩
    · rw [if_neg hs]
      exact ⟨rfl, rfl, rfl, rfl⟩

/-- A new group is created exactly from the current event's data. -/
theorem crashStep_create (device_map : String → Option String)
    (symtab : String → String → Option SymbolTable) (override sig_filter : Option String)
    (m : List CrashSignatureGroup) (e : CrashEvent)
    (hnew : ∀ g ∈ m, g.sig ≠ crashSig device_map symtab override e)
    (hflt : ¬(truthyStr sig_filter ∧
      ¬pyStartsWith (crashSig device_map symtab override e) (sig_filter.getD ""))) :
    ∃ g' ∈ crashStep device_map symtab override sig_filter m e,
      g'.sig = crashSig device_map symtab override e ∧
      g'.frames = crashFrames device_map symtab override e ∧
      g'.signal = e.signal_name.getD "?" ∧
      g'.shallow = decide (((crashFrames device_map symtab override e).filter
        (fun f => !f.is_shared_lib)).length ≤ 2) ∧
      g'.count = 1 := by
  unfold crashStep
  rw [if_neg hflt]
  have hany : ¬m.any (fun g => g.sig = crashSig device_map symtab override e) := by
    rw [List.any_eq_true]
    rintro ⟨g, hgm, hgs⟩
    exact hnew g hgm (by simpa using hgs)
  rw [if_neg hany]
  refine ⟨_, List.mem_map_of_mem _ (List.mem_append_right m
    (List.mem_singleton_self (newGroup (crashSig device_map symtab override e)
      (e.signal_name.getD "?") (crashFrames device_map symtab override e)))), ?_⟩
  have hsig : (newGroup (crashSig device_map symtab override e)
      (e.signal_name.getD "?") (crashFrames device_map symtab override e)).sig
      = crashSig device_map symtab override e := rfl
  simp only [hsig, if_true]
  exact ⟨rfl, rfl, rfl, rfl, rfl⟩

/-- C8: once a CrashSignatureGroup exists in the aggregation state, folding
any batch of further events through the analysis step leaves its signature,
representative frame list, signal name and shallow flag exactly as first
stored (only the statistics fields change); and a group created by an
unfiltered event whose signature is new stores that event's frames, signal
and shallow flag with count 1. -/
theorem C8_representative_frames_fixed (device_map : String → Option String)
    (symtab : String → String → Option SymbolTable)
    (override sig_filter : Option String) :
    (∀ (es : List CrashEvent) (m : List CrashSignatureGroup), ∀ g ∈ m,
      ∃ g' ∈ es.foldl (crashStep device_map symtab override sig_filter) m,
        g'.sig = g.sig ∧ g'.frames = g.frames ∧ g'.signal = g.signal ∧
        g'.shallow = g.shallow) ∧
    (∀ (m : List CrashSignatureGroup) (e : CrashEvent),
      (∀ g ∈ m, g.sig ≠ crashSig device_map symtab override e) →
      ¬(truthyStr sig_filter ∧
        ¬pyStartsWith (crashSig device_map symtab override e) (sig_filter.getD "")) →
      ∃ g' ∈ crashStep device_map symtab override sig_filter m e,
        g'.sig = crashSig device_map symtab override e ∧
        g'.frames = crashFrames device_map symtab override e ∧
        g'.signal = e.signal_name.getD "?" ∧
        g'.shallow = decide (((crashFrames device_map symtab override e).filter
          (fun f => !f.is_shared_lib)).length ≤ 2) ∧
        g'.count = 1) := by
  constructor
  · intro es
    induction es with
    | nil =>
      intro m g hg
      exact ⟨g, hg, rfl, rfl, rfl, rfl⟩
    | cons e rest ih =>
      intro m g hg
      obtain ⟨g1, hg1, h1⟩ := crashStep_preserve device_map symtab override sig_filter m e g hg
      obtain ⟨g2, hg2, h2⟩ := ih (crashStep device_map symtab override sig_filter m e) g1 hg1
      exact ⟨g2, hg2, h2.1.trans h1.1, h2.2.1.trans h1.2.1,
        h2.2.2.1.trans h1.2.2.1, h2.2.2.2.trans h1.2.2.2⟩
  · exact crashStep_create device_map symtab override sig_filter

/-- Witness for C8: a concrete second event with the same signature leaves
the first group's representative data untouched while a fresh state creates
the group from the event. -/
theorem C8_representative_frames_fixed_witness :
    (∃ g' ∈ [emptyBacktraceEvent].foldl
        (crashStep (fun _ => none) (fun _ _ => none) none none)
        [{ sig := "unknown", count := 1, signal := "?", versions := ["unknown"],
           devices := [""], platforms := ["pi32"], uptimes := [0], timestamps := [""],
           frames := [], shallow := true, instances := [] }],
      g'.sig = "unknown" ∧ g'.frames = [] ∧ g'.signal = "?" ∧ g'.shallow = true) ∧
    (∃ g' ∈ crashStep (fun _ => none) (fun _ _ => none) none none [] emptyBacktraceEvent,
      g'.sig = crashSig (fun _ => none) (fun _ _ => none) none emptyBacktraceEvent ∧
      g'.frames = crashFrames (fun _ => none) (fun _ _ => none) none emptyBacktraceEvent ∧
      g'.signal = "?" ∧
      g'.shallow = decide (((crashFrames (fun _ => none) (fun _ _ => none) none
        emptyBacktraceEvent).filter (fun f => !f.is_shared_lib)).length ≤ 2) ∧
      g'.count = 1) := by
  constructor
  · obtain ⟨g', hmem, h1, h2, h3, h4⟩ :=
      (C8_representative_frames_fixed (fun _ => none) (fun _ _ => none) none none).1
        [emptyBacktraceEvent]
        [{ sig := "unknown", count := 1, signal := "?", versions := ["unknown"],
           devices := [""], platforms := ["pi32"], uptimes := [0], timestamps := [""],
           frames := [], shallow := true, instances := [] }]
        _ (List.mem_singleton_self _)
    exact ⟨g', hmem, h1, h2, h3, h4⟩
  · exact (C8_representative_frames_fixed (fun _ => none) (fun _ _ => none) none none).2
      [] emptyBacktraceEvent (fun g hg => absurd hg (List.not_mem_nil g))
      (by simp [truthyStr])

/- ------------------------------------------------------------------
   C6: empty-backtrace events (corrected)
   ------------------------------------------------------------------ -/

/-- C6 counterexample: a batch whose only event has an empty backtrace still
creates a CrashSignatureGroup — keyed `"unknown"`, with count 1 and the event
recorded in every aggregate — rather than being skipped. -/
theorem C6_counterexample :
    analyze_crashes [emptyBacktraceEvent] [] (fun _ _ => none) none none none
      = ⟨1, 1, [⟨"unknown", 1, "?", ["unknown"], [""], ["pi32"], [0], [""], [],
          true, [⟨"unknown", "pi32", "", 0, "?", "", []⟩]⟩]⟩ := by
  decide

/-- C6 amended: an event with an empty backtrace is not skipped; it resolves
to an empty frame list, receives the literal signature `"unknown"`, and is
aggregated into the `"unknown"` group (created with count 1 when absent,
otherwise incremented with its representative untouched), while processing
of the remaining events continues from the updated state. -/
theorem C6_empty_backtrace_amended (device_map : String → Option String)
    (symtab : String → String → Option SymbolTable) (override : Option String)
    (m : List CrashSignatureGroup) (e : CrashEvent) (hbt : e.backtrace = []) :
    crashFrames device_map symtab override e = [] ∧
    crashSig device_map symtab override e = "unknown" ∧
    ((∀ g ∈ m, g.sig ≠ "unknown") →
      ∃ g' ∈ crashStep device_map symtab override none m e,
        g'.sig = "unknown" ∧ g'.count = 1 ∧ g'.frames = []) ∧
    (∀ g ∈ m, g.sig = "unknown" →
      ∃ g' ∈ crashStep device_map symtab override none m e,
        g'.sig = "unknown" ∧ g'.count = g.count + 1 ∧ g'.frames = g.frames) ∧
    (∀ (es : List CrashEvent) (m0 : List CrashSignatureGroup),
      (e :: es).foldl (crashStep device_map symtab override none) m0
        = es.foldl (crashStep device_map symtab override none)
            (crashStep device_map symtab override none m0 e)) := by
  have hframes : crashFrames device_map symtab override e = [] := by
    unfold crashFrames
    rw [hbt]
    rfl
  have hsig : crashSig device_map symtab override e = "unknown" := by
    unfold crashSig
    rw [hframes]
    rfl
  refine ⟨hframes, hsig, ?_, ?_, fun es m0 => rfl⟩
  · intro hnone
    obtain ⟨g', hmem, h1, h2, h3, h4, h5⟩ :=
      crashStep_create device_map symtab override none m e
        (fun g hg => by rw [hsig]; exact hnone g hg)
        (by simp [truthyStr])
    exact ⟨g', hmem, h1.trans hsig, h5, h2.trans hframes⟩
  · intro g hg hgs
    unfold crashStep
    rw [if_neg (by simp [truthyStr])]
    have hg1 : g ∈ (if m.any (fun g => g.sig = crashSig device_map symtab override e)
        then m
        else m ++ [newGroup (crashSig device_map symtab override e)
          (e.signal_name.getD "?") (crashFrames device_map symtab override e)]) := by
      by_cases hany : m.any (fun g => g.sig = crashSig device_map symtab override e)
      · rw [if_pos hany]; exact hg
      · rw [if_neg hany]; exact List.mem_append_left _ hg
    refine ⟨_, List.mem_map_of_mem _ hg1, ?_⟩
    have hs : g.sig = crashSig device_map symtab override e := by
      rw [hgs, hsig]
    rw [if_pos hs]
    exact ⟨hgs, rfl, rfl⟩

/-- Witness for C6's amended statement at a concrete empty-backtrace event
and empty state. -/
theorem C6_empty_backtrace_amended_witness :
    crashFrames (fun _ => none) (fun _ _ => none) none emptyBacktraceEvent = [] ∧
    crashSig (fun _ => none) (fun _ _ => none) none emptyBacktraceEvent = "unknown" ∧
    ∃ g' ∈ crashStep (fun _ => none) (fun _ _ => none) none none [] emptyBacktraceEvent,
      g'.sig = "unknown" ∧ g'.count = 1 ∧ g'.frames = [] := by
  have h := C6_empty_backtrace_amended (fun _ => none) (fun _ _ => none) none []
    emptyBacktraceEvent rfl
  exact ⟨h.1, h.2.1, h.2.2.1 (fun g hg => absurd hg (List.not_mem_nil g))⟩
